import Mathlib

/-!
# aipy `utils.add2array`: scatter-accumulate `a[ind] += data`

A shallow embedding of `src/utils/utils.cpp`.

* Process memory is a byte-addressed map `Mem`; the three `PyArrayObject`
  descriptors point into that single memory, so aliasing between the arrays
  is expressible.
* Multi-byte objects are laid out little-endian; `long` is 64 bits (LP64).
* Integer `+=` is modelled as C does it on a two's-complement machine: the
  operands are read as values of the element type, added as mathematical
  integers and the sum is converted back to the element type (reduced
  modulo `2^w`).  Floating-point addition is not interpreted: it is the
  parameter `fadd`, a binary operation on bit patterns.
* Addresses and loop counters are unbounded integers.
-/

namespace Utils

/-! ## Memory -/

/-- Byte-addressed memory: the byte stored at each address. -/
abbrev Mem := Int → Nat

/-- Read `n` bytes starting at address `p` as a little-endian bit pattern. -/
def load (m : Mem) (p : Int) : Nat → Nat
  | 0 => 0
  | n + 1 => m p % 256 + 256 * load m (p + 1) n

/-- Write the low `n` bytes of `v` little-endian starting at address `p`. -/
def store (m : Mem) (p : Int) (n : Nat) (v : Nat) : Mem :=
  fun x => if p ≤ x ∧ x < p + n then v / 256 ^ (x - p).toNat % 256 else m x

/-! ## Element types -/

/-- The C element types the template `AddStuff<T, NT>` is instantiated with. -/
inductive CType where
  | bool | char | uchar | short | ushort | int | uint | long | ulong
  | longlong | ulonglong | float | double | longdouble
  deriving DecidableEq, Repr

/-- Modelled from the spec: numpy's element-type tags (`NPY_TYPES`, declared in
`numpy/arrayobject.h`, which is not part of the source tree).  The first
seventeen are the tags the dispatch chain tests for; the remaining ones stand
for the non-numeric tags (object, string, unicode, void). -/
inductive NPY_TYPES where
  | NPY_BOOL | NPY_BYTE | NPY_UBYTE | NPY_SHORT | NPY_USHORT | NPY_INT | NPY_UINT
  | NPY_LONG | NPY_ULONG | NPY_LONGLONG | NPY_ULONGLONG
  | NPY_FLOAT | NPY_DOUBLE | NPY_LONGDOUBLE
  | NPY_CFLOAT | NPY_CDOUBLE | NPY_CLONGDOUBLE
  | NPY_OBJECT | NPY_STRING | NPY_UNICODE | NPY_VOID
  deriving DecidableEq, Repr

open NPY_TYPES

/-- Size in bytes of a C type, `sizeof(T)` on an LP64 little-endian platform. -/
def sizeof : CType → Nat
  | .bool => 1 | .char => 1 | .uchar => 1
  | .short => 2 | .ushort => 2
  | .int => 4 | .uint => 4
  | .long => 8 | .ulong => 8 | .longlong => 8 | .ulonglong => 8
  | .float => 4 | .double => 8 | .longdouble => 16

/-- Whether the integer type is signed (`char` is taken signed). -/
def isSigned : CType → Bool
  | .char | .short | .int | .long | .longlong => true
  | _ => false

/-- Whether the type is a floating-point type. -/
def isFloating : CType → Bool
  | .float | .double | .longdouble => true
  | _ => false

/-- The value a bit pattern denotes when read through an lvalue of type `T`
(for the non-floating types). -/
def toValue (T : CType) (bits : Nat) : Int :=
  match T with
  | .bool => if bits = 0 then 0 else 1
  | _ =>
    if isSigned T ∧ 2 ^ (8 * sizeof T - 1) ≤ bits then (bits : Int) - 2 ^ (8 * sizeof T)
    else (bits : Int)

/-- Conversion of an integer value to type `T`, as a bit pattern. -/
def ofValue (T : CType) (v : Int) : Nat :=
  match T with
  | .bool => if v = 0 then 0 else 1
  | _ => (v % 2 ^ (8 * sizeof T)).toNat

/-- The bit pattern of `x + y` computed by `x += y` at type `T`. -/
def plus (fadd : CType → Nat → Nat → Nat) (T : CType) (x y : Nat) : Nat :=
  if isFloating T then fadd T x y else ofValue T (toValue T x + toValue T y)

/-! ## Array descriptors and the access macros -/

/-- The fields of numpy's `PyArrayObject` the code reads
(`descr->type_num` is flattened into `type_num`). -/
structure PyArrayObject where
  data : Int
  nd : Nat
  dimensions : List Int
  strides : List Int
  type_num : NPY_TYPES

/-- `PNT1(a,i)`: `a->data + i*a->strides[0]`. -/
def PNT1 (a : PyArrayObject) (i : Int) : Int :=
  a.data + i * a.strides.getD 0 0

/-- `PNT2(a,i,j)`: `a->data + i*a->strides[0] + j*a->strides[1]`. -/
def PNT2 (a : PyArrayObject) (i j : Int) : Int :=
  a.data + i * a.strides.getD 0 0 + j * a.strides.getD 1 0

/-- `IND2(a,i,j,long)`: the `long` stored at `PNT2(a,i,j)`. -/
def IND2 (m : Mem) (a : PyArrayObject) (i j : Int) : Int :=
  toValue .long (load m (PNT2 a i j) (sizeof .long))

/-- `TYPE(a)`. -/
def TYPE (a : PyArrayObject) : NPY_TYPES := a.type_num

/-- `DIM(a,i)`. -/
def DIM (a : PyArrayObject) (i : Nat) : Int := a.dimensions.getD i 0

/-- `RANK(a)`. -/
def RANK (a : PyArrayObject) : Nat := a.nd

/-- `ADD(ptr0,ptr1,type)`: `*(type *)ptr0 += *(type *)ptr1`. -/
def ADD (fadd : CType → Nat → Nat → Nat) (m : Mem) (ptr0 ptr1 : Int) (T : CType) : Mem :=
  store m ptr0 (sizeof T) (plus fadd T (load m ptr0 (sizeof T)) (load m ptr1 (sizeof T)))

/-- `CADD(ptr0,ptr1,type)`: `ADD` on the component at `ptr0`, then `ADD` on the
component `sizeof(type)` bytes further on. -/
def CADD (fadd : CType → Nat → Nat → Nat) (m : Mem) (ptr0 ptr1 : Int) (T : CType) : Mem :=
  ADD fadd (ADD fadd m ptr0 ptr1 T) (ptr0 + sizeof T) (ptr1 + sizeof T) T

/-! ## The accumulation loops -/

/-- The inner loop of `addloop`/`caddloop`: starting from `a->data`, add
`IND2(ind,i,j,long) * a->strides[j]` for `j = 0 .. RANK(a)-1`. -/
def index (m : Mem) (a ind : PyArrayObject) (i : Nat) : Int :=
  (List.range (RANK a)).foldl
    (fun idx (j : Nat) => idx + IND2 m ind i j * a.strides.getD j 0) a.data

/-- `AddStuff<T,NT>::addloop`.  The tag `NT` is not used by the body. -/
def addloop (fadd : CType → Nat → Nat → Nat) (T : CType) (_NT : NPY_TYPES)
    (a ind data : PyArrayObject) (m : Mem) : Mem :=
  (List.range (DIM ind 0).toNat).foldl
    (fun m i => ADD fadd m (index m a ind i) (PNT1 data i) T) m

/-- `AddStuff<T,NT>::caddloop`.  The tag `NT` is not used by the body. -/
def caddloop (fadd : CType → Nat → Nat → Nat) (T : CType) (_NT : NPY_TYPES)
    (a ind data : PyArrayObject) (m : Mem) : Mem :=
  (List.range (DIM ind 0).toNat).foldl
    (fun m i => CADD fadd m (index m a ind i) (PNT1 data i) T) m

/-! ## `add2array` -/

/-- What `add2array` returns: `Py_None`, or `NULL` with a `ValueError` set
(`PyErr_Format(PyExc_ValueError, ...)`), identified by its formatted message. -/
inductive PyResult where
  | Py_None
  | ValueError (msg : String)
  deriving DecidableEq, Repr

/-- What a call leaves behind: the returned object, the memory, and the lines
written to standard output (the two type tags printed by the `printf`). -/
structure Outcome where
  ret : PyResult
  mem : Mem
  out : List (NPY_TYPES × NPY_TYPES)

/-- The type-dispatch chain of `add2array`: the memory after the selected loop,
or `none` in the final `else` branch. -/
def dispatch (fadd : CType → Nat → Nat → Nat) (a ind data : PyArrayObject) (m : Mem) :
    Option Mem :=
  if TYPE a = NPY_BOOL then some (addloop fadd .bool NPY_BOOL a ind data m)
  else if TYPE a = NPY_BYTE then some (addloop fadd .char NPY_BYTE a ind data m)
  else if TYPE a = NPY_UBYTE then some (addloop fadd .uchar NPY_BYTE a ind data m)
  else if TYPE a = NPY_SHORT then some (addloop fadd .short NPY_SHORT a ind data m)
  else if TYPE a = NPY_USHORT then some (addloop fadd .ushort NPY_SHORT a ind data m)
  else if TYPE a = NPY_INT then some (addloop fadd .int NPY_INT a ind data m)
  else if TYPE a = NPY_UINT then some (addloop fadd .uint NPY_UINT a ind data m)
  else if TYPE a = NPY_LONG then some (addloop fadd .long NPY_LONG a ind data m)
  else if TYPE a = NPY_ULONG then some (addloop fadd .ulong NPY_ULONG a ind data m)
  else if TYPE a = NPY_LONGLONG then some (addloop fadd .longlong NPY_LONGLONG a ind data m)
  else if TYPE a = NPY_ULONGLONG then
    some (addloop fadd .ulonglong NPY_ULONGLONG a ind data m)
  else if TYPE a = NPY_FLOAT then some (addloop fadd .float NPY_FLOAT a ind data m)
  else if TYPE a = NPY_DOUBLE then some (addloop fadd .double NPY_DOUBLE a ind data m)
  else if TYPE a = NPY_LONGDOUBLE then
    some (addloop fadd .longdouble NPY_LONGDOUBLE a ind data m)
  else if TYPE a = NPY_CFLOAT then some (caddloop fadd .float NPY_FLOAT a ind data m)
  else if TYPE a = NPY_CDOUBLE then some (caddloop fadd .double NPY_DOUBLE a ind data m)
  else if TYPE a = NPY_CLONGDOUBLE then
    some (caddloop fadd .longdouble NPY_CLONGDOUBLE a ind data m)
  else none

/-- `add2array(a, ind, data)` after argument parsing: the chain of
`CHK_ARRAY_RANK` / `CHK_ARRAY_DIM` / `CHK_ARRAY_TYPE` checks, the comparison
of the two element types, and the dispatch to the accumulation loop. -/
def add2array (fadd : CType → Nat → Nat → Nat) (a ind data : PyArrayObject) (m : Mem) :
    Outcome :=
  if RANK ind ≠ 2 then ⟨.ValueError "rank(ind) != 2", m, []⟩
  else if RANK data ≠ 1 then ⟨.ValueError "rank(data) != 1", m, []⟩
  else if DIM ind 0 ≠ DIM data 0 then ⟨.ValueError "dim(ind) != data->dimensions[0]", m, []⟩
  else if DIM ind 1 ≠ (RANK a : Int) then ⟨.ValueError "dim(ind) != a->nd", m, []⟩
  else if TYPE ind ≠ NPY_LONG then ⟨.ValueError "type(ind) != NPY_LONG", m, []⟩
  else if TYPE a ≠ TYPE data then
    ⟨.ValueError "type(a) != type(data)", m, [(TYPE a, TYPE data)]⟩
  else
    match dispatch fadd a ind data m with
    | some m1 => ⟨.Py_None, m1, []⟩
    | none => ⟨.ValueError "Unsupported data type.", m, []⟩

/-! ## Coordinates, layouts and validity of inputs -/

/-- Number of rows the loops run over: `DIM(ind,0)`. -/
def nrows (ind : PyArrayObject) : Nat := (DIM ind 0).toNat

/-- Row `i` of `ind`, as the loops read it: `IND2(ind,i,j,long)` for `j < R`. -/
def row (m : Mem) (ind : PyArrayObject) (R i : Nat) : List Int :=
  (List.range R).map (fun (j : Nat) => IND2 m ind i j)

/-- Sum of the products of coordinates and strides. -/
def dot : List Int → List Int → Int
  | x :: c, s :: ss => x * s + dot c ss
  | _, _ => 0

/-- Address of the element of `a` at coordinate tuple `c`. -/
def itemptr (a : PyArrayObject) (c : List Int) : Int := a.data + dot c a.strides

/-- The coordinate tuple lies within the extents: `0 ≤ c[j] < dims[j]` on every axis. -/
def inRange : List Int → List Int → Bool
  | [], [] => true
  | x :: c, d :: ds => decide (0 ≤ x) && decide (x < d) && inRange c ds
  | _, _ => false

/-- The byte ranges `[p, p+n)` and `[q, q+k)` do not overlap. -/
def Apart (p : Int) (n : Nat) (q : Int) (k : Nat) : Prop := p + n ≤ q ∨ q + k ≤ p

instance (p : Int) (n : Nat) (q : Int) (k : Nat) : Decidable (Apart p n q k) := by
  unfold Apart; infer_instance

/-- Strides of a C-contiguous array with elements of `w` bytes and extents `dims`. -/
def cstrides (w : Nat) : List Int → List Int
  | [] => []
  | _ :: ds => ((w : Int) * ds.prod) :: cstrides w ds

/-- The array is C-contiguous with elements of `w` bytes. -/
def CContiguous (a : PyArrayObject) (w : Nat) : Prop :=
  a.dimensions.length = a.nd ∧ a.strides = cstrides w a.dimensions

instance (a : PyArrayObject) (w : Nat) : Decidable (CContiguous a w) := by
  unfold CContiguous; infer_instance

/-- Non-overlapping layout: elements at distinct in-range coordinates occupy
disjoint ranges of `w` bytes. -/
def NonOverlapping (a : PyArrayObject) (w : Nat) : Prop :=
  a.dimensions.length = a.nd ∧
  ∀ c c', inRange c a.dimensions = true → inRange c' a.dimensions = true → c ≠ c' →
    Apart (itemptr a c) w (itemptr a c') w

/-- Every row of `ind` lies within the extents of `a`:
`0 ≤ ind[i,j] < a.shape[j]` for every row `i` and axis `j`. -/
def RowsInRange (m : Mem) (a ind : PyArrayObject) : Prop :=
  ∀ i, i < nrows ind → ∀ j, j < RANK a → 0 ≤ IND2 m ind i j ∧ IND2 m ind i j < DIM a j

instance (m : Mem) (a ind : PyArrayObject) : Decidable (RowsInRange m a ind) := by
  unfold RowsInRange; infer_instance

/-- The arrays read by a call are stored apart from what the call writes: no
`w`-byte cell of `a` addressed by a row of `ind` overlaps an element of `ind2`
or of `data2`. -/
def NoAlias (w : Nat) (m : Mem) (a ind ind2 data2 : PyArrayObject) : Prop :=
  ∀ i, i < nrows ind → ∀ k, k < nrows ind2 →
    Apart (index m a ind i) w (PNT1 data2 k) w ∧
    ∀ j, j < RANK a → Apart (index m a ind i) w (PNT2 ind2 k j) (sizeof .long)

instance (w : Nat) (m : Mem) (a ind ind2 data2 : PyArrayObject) :
    Decidable (NoAlias w m a ind ind2 data2) := by
  unfold NoAlias; infer_instance

/-! ## The loop selected for each tag -/

/-- The instantiation the dispatch chain selects for a tag: the C type `T` and
whether the loop is `caddloop`; `none` for the final `else`. -/
def loopOf : NPY_TYPES → Option (CType × Bool)
  | NPY_BOOL => some (.bool, false)
  | NPY_BYTE => some (.char, false)
  | NPY_UBYTE => some (.uchar, false)
  | NPY_SHORT => some (.short, false)
  | NPY_USHORT => some (.ushort, false)
  | NPY_INT => some (.int, false)
  | NPY_UINT => some (.uint, false)
  | NPY_LONG => some (.long, false)
  | NPY_ULONG => some (.ulong, false)
  | NPY_LONGLONG => some (.longlong, false)
  | NPY_ULONGLONG => some (.ulonglong, false)
  | NPY_FLOAT => some (.float, false)
  | NPY_DOUBLE => some (.double, false)
  | NPY_LONGDOUBLE => some (.longdouble, false)
  | NPY_CFLOAT => some (.float, true)
  | NPY_CDOUBLE => some (.double, true)
  | NPY_CLONGDOUBLE => some (.longdouble, true)
  | _ => none

/-- Bytes one element of the destination occupies for the selected loop:
`sizeof(T)`, or twice that for the two components of a complex element. -/
def width (T : CType) (cplx : Bool) : Nat := if cplx then 2 * sizeof T else sizeof T

/-- Bytes per element for a tag (0 for a tag the dispatch chain rejects). -/
def itemsize (t : NPY_TYPES) : Nat :=
  match loopOf t with
  | some (T, cplx) => width T cplx
  | none => 0

/-- Element-wise sum on bit patterns: `plus` for a real type; for a complex
element the low `sizeof(T)` bytes (real part) and the high `sizeof(T)` bytes
(imaginary part) are added separately. -/
def eplus (fadd : CType → Nat → Nat → Nat) (T : CType) (cplx : Bool) (x y : Nat) : Nat :=
  if cplx then
    plus fadd T (x % 256 ^ sizeof T) (y % 256 ^ sizeof T) % 256 ^ sizeof T
      + 256 ^ sizeof T *
        (plus fadd T (x / 256 ^ sizeof T % 256 ^ sizeof T) (y / 256 ^ sizeof T % 256 ^ sizeof T)
          % 256 ^ sizeof T)
  else plus fadd T x y % 256 ^ sizeof T

/-- Element-wise sum for a tag. -/
def tplus (fadd : CType → Nat → Nat → Nat) (t : NPY_TYPES) (x y : Nat) : Nat :=
  match loopOf t with
  | some (T, cplx) => eplus fadd T cplx x y
  | none => x

/-! ## The specification's reading: `a[ind[i]] += data[i]`, row by row -/

/-- Element `i` of the one-dimensional array `data`, `w` bytes wide. -/
def item (m : Mem) (data : PyArrayObject) (w i : Nat) : Nat := load m (PNT1 data i) w

/-- The body of either loop: `CADD` when `cplx`, else `ADD`. -/
def step (fadd : CType → Nat → Nat → Nat) (T : CType) (cplx : Bool) (m : Mem)
    (ptr0 ptr1 : Int) : Mem :=
  if cplx then CADD fadd m ptr0 ptr1 T else ADD fadd m ptr0 ptr1 T

/-- Either loop, by the flag `cplx`. -/
def loop (fadd : CType → Nat → Nat → Nat) (T : CType) (cplx : Bool)
    (a ind data : PyArrayObject) (m : Mem) : Mem :=
  (List.range (nrows ind)).foldl
    (fun m i => step fadd T cplx m (index m a ind i) (PNT1 data i)) m

/-- One accumulation on the `w` bytes at address `p`. -/
def bump (op : Nat → Nat → Nat) (w : Nat) (m : Mem) (p : Int) (v : Nat) : Mem :=
  store m p w (op (load m p w) v)

/-- A list of (address, addend) accumulations applied in order. -/
def applyAll (op : Nat → Nat → Nat) (w : Nat) (m : Mem) (us : List (Int × Nat)) : Mem :=
  us.foldl (fun m u => bump op w m u.1 u.2) m

/-- The (address, addend) pairs of a call, read from memory `m`. -/
def updates (w : Nat) (m : Mem) (a ind data : PyArrayObject) : List (Int × Nat) :=
  (List.range (nrows ind)).map (fun i => (index m a ind i, item m data w i))

/-- The (coordinate tuple, addend) pairs of a call, read from memory `m`. -/
def entries (w : Nat) (m : Mem) (a ind data : PyArrayObject) : List (List Int × Nat) :=
  (List.range (nrows ind)).map (fun i => (row m ind (RANK a) i, item m data w i))

/-- The addends of the rows equal to the coordinate tuple `c`, in row order. -/
def addendsAt (w : Nat) (m : Mem) (a ind data : PyArrayObject) (c : List Int) : List Nat :=
  ((entries w m a ind data).filter (fun e => decide (e.1 = c))).map (fun e => e.2)


/-- Memory `m'` holds the same bytes as `m` in every element of `ind` and `data`
the loop reads. -/
def SameInputs (w : Nat) (m : Mem) (a ind data : PyArrayObject) (m' : Mem) : Prop :=
  ∀ k, k < nrows ind →
    (∀ x, PNT1 data k ≤ x → x < PNT1 data k + w → m' x = m x) ∧
    ∀ j, j < RANK a → ∀ x, PNT2 ind k j ≤ x → x < PNT2 ind k j + sizeof .long → m' x = m x

/-! ## Sample inputs -/

/-- The values `vs`, `n` bytes each, laid out consecutively from address `p`. -/
def poke (m : Mem) (p : Int) (n : Nat) : List Nat → Mem
  | [] => m
  | v :: vs => poke (store m p n v) (p + n) n vs

/-- A stand-in for floating-point addition on bit patterns: exact when one
operand is `+0.0` (all bits clear) and the other is not `-0.0`; elsewhere it
returns `+0.0`. -/
def sampleFadd (T : CType) (x y : Nat) : Nat :=
  if x = 0 ∧ y ≠ 2 ^ (8 * sizeof T - 1) then y
  else if y = 0 ∧ x ≠ 2 ^ (8 * sizeof T - 1) then x
  else 0

/-- The specification's first scenario: `a = zeros(3)` of type `int`. -/
def intA : PyArrayObject := ⟨0, 1, [3], [4], NPY_INT⟩

/-- The specification's first scenario: `ind = [[0],[1],[0]]`. -/
def intInd : PyArrayObject := ⟨100, 2, [3, 1], [8, 8], NPY_LONG⟩

/-- The specification's first scenario: `data = [5, 7, 3]`. -/
def intData : PyArrayObject := ⟨200, 1, [3], [4], NPY_INT⟩

/-- Memory holding the three arrays of the first scenario. -/
def intMem : Mem := poke (poke (fun _ => 0) 100 8 [0, 1, 0]) 200 4 [5, 7, 3]

/-- The specification's second scenario: `a = zeros((2,2))` of type complex64. -/
def cplxA : PyArrayObject := ⟨0, 2, [2, 2], [16, 8], NPY_CFLOAT⟩

/-- The specification's second scenario: `ind = [[0,0],[1,1]]`. -/
def cplxInd : PyArrayObject := ⟨100, 2, [2, 2], [16, 8], NPY_LONG⟩

/-- The specification's second scenario: `data = [1+2i, 3-1i]`. -/
def cplxData : PyArrayObject := ⟨200, 1, [2], [8], NPY_CFLOAT⟩

/-- Memory holding the three arrays of the second scenario; the four `float`
components of `data` are the IEEE-754 single-precision patterns of
`1.0`, `2.0`, `3.0` and `-1.0`. -/
def cplxMem : Mem :=
  poke (poke (fun _ => 0) 100 8 [0, 0, 1, 1]) 200 4
    [0x3F800000, 0x40000000, 0x40400000, 0xBF800000]

/-- The integer element types (neither `bool` nor floating point). -/
def isInteger : CType → Bool
  | .char | .uchar | .short | .ushort | .int | .uint | .long | .ulong
  | .longlong | .ulonglong => true
  | _ => false

/-- Whether the tag is one of the integer tags (`NPY_BYTE` ... `NPY_ULONGLONG`). -/
def integerTag (t : NPY_TYPES) : Bool :=
  match loopOf t with
  | some (T, false) => isInteger T
  | _ => false

/-- A destination of two `int` elements with stride 0: both coordinates address
the same four bytes. -/
def ovA : PyArrayObject := ⟨0, 1, [2], [0], NPY_INT⟩

/-- A C-contiguous destination of two `bool` elements. -/
def boolA : PyArrayObject := ⟨0, 1, [2], [1], NPY_BOOL⟩

/-- A destination of two `bool` elements with stride 0: both coordinates
address the same byte. -/
def ovBoolA : PyArrayObject := ⟨0, 1, [2], [0], NPY_BOOL⟩

/-- Two rows, both the coordinate tuple `[1]`. -/
def boolInd : PyArrayObject := ⟨100, 2, [2, 1], [8, 8], NPY_LONG⟩

/-- The addends `[true, true]`. -/
def boolData : PyArrayObject := ⟨200, 1, [2], [1], NPY_BOOL⟩

/-- Memory holding `boolInd` and `boolData`; the destination bytes are `false`. -/
def boolMem : Mem := poke (poke (fun _ => 0) 100 8 [1, 1]) 200 1 [1, 1]

/-- Whether the tag is `NPY_BOOL` or an integer tag: the element types whose
`+=` is not a floating-point addition. -/
def nonFloatingTag (t : NPY_TYPES) : Bool :=
  match loopOf t with
  | some (T, false) => !isFloating T
  | _ => false

/-- The cells of `a` addressed by the rows of `ind` never overlap in part: any
two of them are the same cell or share no byte.  This holds whenever the
accesses are aligned (each stride of `a` a multiple of the element size) and
whenever the layout is non-overlapping. -/
def NoPartialOverlap (w : Nat) (m : Mem) (a ind : PyArrayObject) : Prop :=
  ∀ i, i < nrows ind → ∀ k, k < nrows ind →
    index m a ind i = index m a ind k ∨ Apart (index m a ind i) w (index m a ind k) w

instance (w : Nat) (m : Mem) (a ind : PyArrayObject) : Decidable (NoPartialOverlap w m a ind) := by
  unfold NoPartialOverlap; infer_instance

/-- The rows of the first scenario in another order: `ind = [[0],[0],[1]]`. -/
def intInd2 : PyArrayObject := ⟨300, 2, [3, 1], [8, 8], NPY_LONG⟩

/-- The addends of the first scenario in the same other order: `data = [3, 5, 7]`. -/
def intData2 : PyArrayObject := ⟨400, 1, [3], [4], NPY_INT⟩

/-- The memory of the first scenario with the reordered arrays added. -/
def intMem2 : Mem := poke (poke intMem 300 8 [0, 0, 1]) 400 4 [3, 5, 7]

/-- The first two rows of `intInd`, `[[0],[1]]`, as an array of their own. -/
def headInd : PyArrayObject := ⟨100, 2, [2, 1], [8, 8], NPY_LONG⟩

/-- The first two addends of `intData`, `[5, 7]`. -/
def headData : PyArrayObject := ⟨200, 1, [2], [4], NPY_INT⟩

/-- The last row of `intInd`, `[[0]]`. -/
def tailInd : PyArrayObject := ⟨116, 2, [1, 1], [8, 8], NPY_LONG⟩

/-- The last addend of `intData`, `[3]`. -/
def tailData : PyArrayObject := ⟨208, 1, [1], [4], NPY_INT⟩

/-- An index array with no rows. -/
def noInd : PyArrayObject := ⟨100, 2, [0, 1], [8, 8], NPY_LONG⟩

/-- A data array with no elements. -/
def noData : PyArrayObject := ⟨200, 1, [0], [4], NPY_INT⟩

/-! ## The specification's validation order and error taxonomy -/

/-- Written from the specification (§7): the kinds of error. -/
inductive ErrorKind where
  | RankMismatch | DimensionMismatch | TypeMismatch | UnsupportedType
  deriving DecidableEq, Repr

/-- Written from the specification (§4.1): the seven validation checks, named
in their documented order 1 to 7. -/
inductive Check where
  | indRank | dataRank | rowCount | columnCount | indType | sameType | supportedType
  deriving DecidableEq, Repr

/-- Written from the specification (§3, §6): the supported element types. -/
def supported (t : NPY_TYPES) : Bool :=
  t ∈ [NPY_BOOL, NPY_BYTE, NPY_UBYTE, NPY_SHORT, NPY_USHORT, NPY_INT, NPY_UINT, NPY_LONG,
    NPY_ULONG, NPY_LONGLONG, NPY_ULONGLONG, NPY_FLOAT, NPY_DOUBLE, NPY_LONGDOUBLE,
    NPY_CFLOAT, NPY_CDOUBLE, NPY_CLONGDOUBLE]

/-- Written from the specification (§4.1): what each check requires of the
arguments. -/
def Check.passes (a ind data : PyArrayObject) : Check → Bool
  | .indRank => decide (ind.nd = 2)
  | .dataRank => decide (data.nd = 1)
  | .rowCount => decide (ind.dimensions.getD 0 0 = data.dimensions.getD 0 0)
  | .columnCount => decide (ind.dimensions.getD 1 0 = (a.nd : Int))
  | .indType => decide (ind.type_num = NPY_LONG)
  | .sameType => decide (a.type_num = data.type_num)
  | .supportedType => supported a.type_num

/-- Written from the specification (§4.1): the kind of error each check reports. -/
def Check.kind : Check → ErrorKind
  | .indRank => .RankMismatch
  | .dataRank => .RankMismatch
  | .rowCount => .DimensionMismatch
  | .columnCount => .DimensionMismatch
  | .indType => .TypeMismatch
  | .sameType => .TypeMismatch
  | .supportedType => .UnsupportedType

/-- The `ValueError` that stands for each check's error in the code: the
message names the array and the expectation that was violated. -/
def Check.error : Check → PyResult
  | .indRank => .ValueError "rank(ind) != 2"
  | .dataRank => .ValueError "rank(data) != 1"
  | .rowCount => .ValueError "dim(ind) != data->dimensions[0]"
  | .columnCount => .ValueError "dim(ind) != a->nd"
  | .indType => .ValueError "type(ind) != NPY_LONG"
  | .sameType => .ValueError "type(a) != type(data)"
  | .supportedType => .ValueError "Unsupported data type."

/-- Written from the specification (§4.1): the documented order of the checks. -/
def documentedOrder : List Check :=
  [.indRank, .dataRank, .rowCount, .columnCount, .indType, .sameType, .supportedType]

/-- Written from the specification (§4.1, §7): the first violated check is
reported and nothing else; success when no check is violated. -/
def validate_spec (a ind data : PyArrayObject) : PyResult :=
  match documentedOrder.find? (fun c => !c.passes a ind data) with
  | some c => c.error
  | none => .Py_None

/-- The kind of error a result carries, if it is one of the seven errors. -/
def errorKind (r : PyResult) : Option ErrorKind :=
  (documentedOrder.find? (fun c => decide (c.error = r))).map Check.kind

/-- A destination of type float64 (`a = zeros(3)`). -/
def doubleA : PyArrayObject := ⟨0, 1, [3], [8], NPY_DOUBLE⟩

/-- An index array of rank 1. -/
def flatInd : PyArrayObject := ⟨100, 1, [3], [8], NPY_LONG⟩

/-- An index array of 32-bit `int` elements, of rank 1. -/
def flatIntInd : PyArrayObject := ⟨100, 1, [3], [4], NPY_INT⟩

/-- An index array of 32-bit `int` elements, of shape `(3, 1)`. -/
def int32Ind : PyArrayObject := ⟨100, 2, [3, 1], [4, 4], NPY_INT⟩

/-- A destination of rank 2 (`a = zeros((2,2))`) of type `int`. -/
def squareA : PyArrayObject := ⟨0, 2, [2, 2], [8, 4], NPY_INT⟩

/-- An index array of shape `(5, 3)`. -/
def wideInd : PyArrayObject := ⟨100, 2, [5, 3], [24, 8], NPY_LONG⟩

/-- A data array of rank 2, shape `(5, 1)`. -/
def rank2Data : PyArrayObject := ⟨300, 2, [5, 1], [4, 4], NPY_INT⟩

/-- A data array of shape `(5,)`. -/
def fiveData : PyArrayObject := ⟨300, 1, [5], [4], NPY_INT⟩

/-- A data array of shape `(6,)`. -/
def sixData : PyArrayObject := ⟨300, 1, [6], [4], NPY_INT⟩

/-- A destination of object type. -/
def objectA : PyArrayObject := ⟨0, 1, [3], [8], NPY_OBJECT⟩

/-- A data array of object type. -/
def objectData : PyArrayObject := ⟨200, 1, [3], [8], NPY_OBJECT⟩

/-- A C-contiguous destination `a = [1, 2]` of type `int`; in the aliased
samples the same array is also passed as `data`. -/
def aliasA : PyArrayObject := ⟨0, 1, [2], [4], NPY_INT⟩

/-- The rows `[[1],[0]]`. -/
def aliasInd : PyArrayObject := ⟨100, 2, [2, 1], [8, 8], NPY_LONG⟩

/-- The rows `[[0],[1]]`: those of `aliasInd` in the other order. -/
def swappedInd : PyArrayObject := ⟨150, 2, [2, 1], [8, 8], NPY_LONG⟩

/-- The view `a[::-1]` of `aliasA`: its elements in the other order. -/
def reversedA : PyArrayObject := ⟨4, 1, [2], [-4], NPY_INT⟩

/-- A copy `[1, 2]` of the contents of `aliasA`, stored apart from it. -/
def copyData : PyArrayObject := ⟨200, 1, [2], [4], NPY_INT⟩

/-- The first row of `aliasInd`, `[[1]]`. -/
def firstInd : PyArrayObject := ⟨100, 2, [1, 1], [8, 8], NPY_LONG⟩

/-- The view `a[0:1]` of `aliasA`. -/
def firstData : PyArrayObject := ⟨0, 1, [1], [4], NPY_INT⟩

/-- The second row of `aliasInd`, `[[0]]`. -/
def secondInd : PyArrayObject := ⟨108, 2, [1, 1], [8, 8], NPY_LONG⟩

/-- The view `a[1:2]` of `aliasA`. -/
def secondData : PyArrayObject := ⟨4, 1, [1], [4], NPY_INT⟩

/-- Memory holding `aliasA`, `aliasInd`, `swappedInd` and `copyData`. -/
def aliasMem : Mem :=
  poke (poke (poke (poke (fun _ => 0) 0 4 [1, 2]) 100 8 [1, 0]) 150 8 [0, 1]) 200 4 [1, 2]

/-- A C-contiguous destination `a = [1, 2, 3]` of type `int`, also passed as
`data`. -/
def alias3A : PyArrayObject := ⟨0, 1, [3], [4], NPY_INT⟩

/-- The rows `[[1],[0],[0]]`. -/
def alias3Ind : PyArrayObject := ⟨100, 2, [3, 1], [8, 8], NPY_LONG⟩

/-- Memory holding `alias3A` and `alias3Ind`. -/
def alias3Mem : Mem := poke (poke (fun _ => 0) 0 4 [1, 2, 3]) 100 8 [1, 0, 0]

/-- A C-contiguous destination `a = [false, true, false]` of type `bool`, also
passed as `data`. -/
def boolAliasA : PyArrayObject := ⟨0, 1, [3], [1], NPY_BOOL⟩

/-- The rows `[[0],[2],[0]]`. -/
def boolAliasInd : PyArrayObject := ⟨100, 2, [3, 1], [8, 8], NPY_LONG⟩

/-- Memory holding `boolAliasA` and `boolAliasInd`. -/
def boolAliasMem : Mem := poke (poke (fun _ => 0) 0 1 [0, 1, 0]) 100 8 [0, 2, 0]

/-- A destination of two `short` elements one byte apart (byte stride 1): the
two elements share a byte. -/
def shortA : PyArrayObject := ⟨0, 1, [2], [1], NPY_SHORT⟩

/-- The rows `[[0],[1]]`. -/
def shortInd : PyArrayObject := ⟨100, 2, [2, 1], [8, 8], NPY_LONG⟩

/-- The rows `[[1],[0]]`. -/
def shortInd2 : PyArrayObject := ⟨150, 2, [2, 1], [8, 8], NPY_LONG⟩

/-- The addends `[1, 1]`. -/
def shortData : PyArrayObject := ⟨200, 1, [2], [2], NPY_SHORT⟩

/-- Memory holding the bytes `FF FF 00` of `shortA`, the two index arrays and
`shortData`. -/
def shortMem : Mem :=
  poke (poke (poke (poke (fun _ => 0) 0 1 [0xFF, 0xFF, 0]) 100 8 [0, 1]) 150 8 [1, 0]) 200 2
    [1, 1]

/-! ## Memory lemmas -/

theorem load_lt (m : Mem) (p : Int) (n : Nat) : load m p n < 256 ^ n := by
  induction n generalizing p with
  | zero => simp [load]
  | succ n ih =>
    have h1 := ih (p + 1)
    have h2 : m p % 256 < 256 := Nat.mod_lt _ (by norm_num)
    simp only [load, pow_succ]
    omega

theorem load_congr {m m' : Mem} {p : Int} {n : Nat}
    (h : ∀ x, p ≤ x → x < p + n → m x = m' x) : load m p n = load m' p n := by
  induction n generalizing p with
  | zero => rfl
  | succ n ih =>
    simp only [load]
    rw [h p (le_refl _) (by push_cast; omega), ih]
    intro x h1 h2
    exact h x (by omega) (by push_cast; omega)

theorem store_outside (m : Mem) (p : Int) (n v : Nat) (x : Int)
    (h : x < p ∨ p + n ≤ x) : store m p n v x = m x := by
  unfold store
  rw [if_neg]
  omega

theorem store_inside (m : Mem) (p : Int) (n v : Nat) (x : Int)
    (h1 : p ≤ x) (h2 : x < p + n) : store m p n v x = v / 256 ^ (x - p).toNat % 256 := by
  unfold store
  rw [if_pos ⟨h1, h2⟩]

theorem load_store_disjoint (m : Mem) (p q : Int) (n k v : Nat)
    (h : q + k ≤ p ∨ p + n ≤ q) : load (store m p n v) q k = load m q k := by
  apply load_congr
  intro x h1 h2
  apply store_outside
  omega

theorem load_of_bytes (m : Mem) (p : Int) (n v : Nat)
    (h : ∀ x, p ≤ x → x < p + n → m x = v / 256 ^ (x - p).toNat % 256) :
    load m p n = v % 256 ^ n := by
  induction n generalizing p v with
  | zero => simp [load, Nat.mod_one]
  | succ n ih =>
    simp only [load]
    have h0 := h p (le_refl _) (by push_cast; omega)
    simp at h0
    rw [h0, ih (p + 1) (v / 256)]
    · rw [pow_succ, mul_comm (256 ^ n) 256, Nat.mod_mul, Nat.mod_mod]
    · intro x h1 h2
      rw [h x (by omega) (by push_cast; omega)]
      have : (x - p).toNat = (x - (p + 1)).toNat + 1 := by omega
      rw [this, pow_succ, Nat.div_div_eq_div_mul, mul_comm]

theorem load_store_same (m : Mem) (p : Int) (n v : Nat) :
    load (store m p n v) p n = v % 256 ^ n :=
  load_of_bytes _ _ _ _ (fun x h1 h2 => store_inside m p n v x h1 h2)

theorem store_store_comm (m : Mem) (p q : Int) (n k v u : Nat)
    (h : q + k ≤ p ∨ p + n ≤ q) :
    store (store m p n v) q k u = store (store m q k u) p n v := by
  funext x
  unfold store
  by_cases h1 : p ≤ x ∧ x < p + n <;> by_cases h2 : q ≤ x ∧ x < q + k <;> simp [h1, h2]
  omega

theorem store_store_same (m : Mem) (p : Int) (n v u : Nat) :
    store (store m p n v) p n u = store m p n u := by
  funext x
  unfold store
  by_cases h1 : p ≤ x ∧ x < p + n <;> simp [h1]

theorem store_congr_val (m : Mem) (p : Int) (n v u : Nat) (h : v % 256 ^ n = u % 256 ^ n) :
    store m p n v = store m p n u := by
  funext x
  unfold store
  by_cases h1 : p ≤ x ∧ x < p + n
  · simp only [h1, and_self, if_true]
    obtain ⟨ha, hb⟩ := h1
    obtain ⟨k, hk⟩ : ∃ k : Nat, (x - p).toNat = k ∧ k < n := ⟨(x - p).toNat, rfl, by omega⟩
    rw [hk.1]
    have e : n = k + 1 + (n - k - 1) := by omega
    have hv : v % 256 ^ (k + 1) = u % 256 ^ (k + 1) := by
      have := congrArg (· % 256 ^ (k + 1)) h
      simp only at this
      rw [Nat.mod_mod_of_dvd _ (pow_dvd_pow 256 (by omega)),
        Nat.mod_mod_of_dvd _ (pow_dvd_pow 256 (by omega))] at this
      exact this
    have key : ∀ w : Nat, w / 256 ^ k % 256 = w % 256 ^ (k + 1) / 256 ^ k := by
      intro w
      rw [pow_succ, Nat.mod_mul_right_div_self]
    rw [key v, key u, hv]
  · simp [h1]

theorem load_append (m : Mem) (p : Int) (n k : Nat) :
    load m p (n + k) = load m p n + 256 ^ n * load m (p + n) k := by
  induction n generalizing p with
  | zero => simp [load]
  | succ n ih =>
    have e : n + 1 + k = (n + k) + 1 := by omega
    rw [e]
    simp only [load]
    rw [ih (p + 1)]
    have e2 : p + 1 + (n : Int) = p + ((n + 1 : Nat) : Int) := by push_cast; ring
    rw [e2, pow_succ]
    ring

theorem store_append (m : Mem) (p : Int) (n k r i : Nat) :
    store (store m p n r) (p + n) k i = store m p (n + k) (r % 256 ^ n + 256 ^ n * i) := by
  funext x
  by_cases h1 : p ≤ x ∧ x < p + n
  · rw [store_outside _ _ _ _ _ (by omega), store_inside _ _ _ _ _ h1.1 h1.2,
      store_inside _ _ _ _ _ h1.1 (by push_cast; omega)]
    obtain ⟨j, hj, hjn⟩ : ∃ j : Nat, (x - p).toNat = j ∧ j < n := ⟨_, rfl, by omega⟩
    rw [hj]
    have e : n = j + 1 + (n - j - 1) := by omega
    have key : ∀ w : Nat, w / 256 ^ j % 256 = w % 256 ^ (j + 1) / 256 ^ j := by
      intro w
      rw [pow_succ, Nat.mod_mul_right_div_self]
    rw [key r, key (r % 256 ^ n + 256 ^ n * i)]
    congr 1
    have hd : 256 ^ (j + 1) ∣ 256 ^ n := pow_dvd_pow 256 (by omega)
    obtain ⟨t, ht⟩ := hd
    rw [ht, mul_assoc, Nat.add_mul_mod_self_left, Nat.mod_mul_right_mod]
  · by_cases h2 : p + n ≤ x ∧ x < p + n + k
    · rw [store_inside _ _ _ _ _ h2.1 h2.2, store_inside _ _ _ _ _ (by omega) (by push_cast; omega)]
      obtain ⟨j, hj⟩ : ∃ j : Nat, (x - (p + n)).toNat = j := ⟨_, rfl⟩
      have hj2 : (x - p).toNat = n + j := by omega
      rw [hj, hj2, pow_add, ← Nat.div_div_eq_div_mul]
      congr 1
      rw [Nat.add_mul_div_left _ _ (by positivity), Nat.div_eq_of_lt (Nat.mod_lt _ (by positivity)),
        zero_add]
    · rw [store_outside _ _ _ _ _ (by omega), store_outside _ _ _ _ _ (by omega),
        store_outside _ _ _ _ _ (by push_cast; omega)]

/-! ## Offsets and layouts -/

theorem dot_nil_right (c : List Int) : dot c [] = 0 := by
  cases c <;> rfl

theorem foldl_index_aux (f : Nat → Int) (s : List Int) (n k : Nat) (b : Int) :
    (List.range' k n).foldl (fun idx (j : Nat) => idx + f j * s.getD j 0) b
      = b + dot ((List.range' k n).map f) (s.drop k) := by
  induction n generalizing k b with
  | zero => simp [dot]
  | succ n ih =>
    rw [List.range'_succ, List.foldl_cons, ih, List.map_cons]
    by_cases hk : k < s.length
    · rw [List.drop_eq_getElem_cons hk, List.getD_eq_getElem _ _ hk]
      simp only [dot]
      ring
    · have h1 : s.drop k = [] := List.drop_eq_nil_of_le (by omega)
      have h2 : s.drop (k + 1) = [] := List.drop_eq_nil_of_le (by omega)
      have h3 : s.getD k 0 = 0 := List.getD_eq_default _ _ (by omega)
      rw [h1, h2, h3, dot_nil_right, dot_nil_right]
      ring

theorem index_eq_itemptr (m : Mem) (a ind : PyArrayObject) (i : Nat) :
    index m a ind i = itemptr a (row m ind (RANK a) i) := by
  unfold index itemptr row
  rw [List.range_eq_range', foldl_index_aux (fun j => IND2 m ind i j)]
  simp

theorem inRange_length {c ds : List Int} (h : inRange c ds = true) : c.length = ds.length := by
  induction ds generalizing c with
  | nil => cases c <;> simp_all [inRange]
  | cons d ds ih =>
    cases c with
    | nil => simp [inRange] at h
    | cons x c =>
      simp only [inRange, Bool.and_eq_true] at h
      simp [ih h.2]

theorem dot_cstrides_bounds (w : Nat) (hw : 0 < w) {c ds : List Int}
    (h : inRange c ds = true) :
    0 ≤ dot c (cstrides w ds) ∧ dot c (cstrides w ds) + w ≤ w * ds.prod := by
  induction ds generalizing c with
  | nil =>
    cases c with
    | nil => simp [dot, cstrides]
    | cons x c => simp [inRange] at h
  | cons d ds ih =>
    cases c with
    | nil => simp [inRange] at h
    | cons x c =>
      simp only [inRange, Bool.and_eq_true, decide_eq_true_eq] at h
      obtain ⟨⟨hx0, hxd⟩, hc⟩ := h
      obtain ⟨h1, h2⟩ := ih hc
      simp only [dot, cstrides, List.prod_cons]
      have hw' : (0 : Int) < w := by exact_mod_cast hw
      have hP : (0 : Int) ≤ w * ds.prod := by linarith
      constructor
      · have := mul_nonneg hx0 hP
        linarith
      · have h3 : (x + 1) * (w * ds.prod) ≤ d * (w * ds.prod) :=
          mul_le_mul_of_nonneg_right (by omega) hP
        nlinarith

theorem dot_cstrides_apart (w : Nat) (hw : 0 < w) {c c' ds : List Int}
    (h : inRange c ds = true) (h' : inRange c' ds = true) (hne : c ≠ c') :
    dot c (cstrides w ds) + w ≤ dot c' (cstrides w ds) ∨
      dot c' (cstrides w ds) + w ≤ dot c (cstrides w ds) := by
  induction ds generalizing c c' with
  | nil =>
    cases c <;> cases c' <;> simp_all [inRange]
  | cons d ds ih =>
    cases c with
    | nil => simp [inRange] at h
    | cons x c =>
      cases c' with
      | nil => simp [inRange] at h'
      | cons y c' =>
        simp only [inRange, Bool.and_eq_true, decide_eq_true_eq] at h h'
        obtain ⟨⟨hx0, hxd⟩, hc⟩ := h
        obtain ⟨⟨hy0, hyd⟩, hc'⟩ := h'
        obtain ⟨b1, b2⟩ := dot_cstrides_bounds w hw hc
        obtain ⟨b1', b2'⟩ := dot_cstrides_bounds w hw hc'
        simp only [dot, cstrides]
        have hw' : (0 : Int) < w := by exact_mod_cast hw
        have hP : (0 : Int) ≤ w * ds.prod := by linarith
        rcases lt_trichotomy x y with hlt | heq | hgt
        · left
          have h3 : (x + 1) * (w * ds.prod) ≤ y * (w * ds.prod) :=
            mul_le_mul_of_nonneg_right (by omega) hP
          nlinarith
        · subst heq
          have hne' : c ≠ c' := fun e => hne (by rw [e])
          rcases ih hc hc' hne' with h4 | h4
          · left; linarith
          · right; linarith
        · right
          have h3 : (y + 1) * (w * ds.prod) ≤ x * (w * ds.prod) :=
            mul_le_mul_of_nonneg_right (by omega) hP
          nlinarith

/-! ## The loop bodies as element-wise accumulations -/

theorem sizeof_pos (T : CType) : 0 < sizeof T := by
  cases T <;> simp [sizeof]

theorem width_pos (T : CType) (cplx : Bool) : 0 < width T cplx := by
  have := sizeof_pos T
  unfold width
  split <;> omega

theorem pair_mod (B r i : Nat) (hB : 0 < B) :
    (r % B + B * i) % (B * B) = r % B + B * (i % B) := by
  rw [Nat.mod_mul, Nat.add_mul_mod_self_left, Nat.mod_mod, Nat.add_mul_div_left _ _ hB,
    Nat.div_eq_of_lt (Nat.mod_lt _ hB), zero_add]

theorem pair_lt (B r i : Nat) (hr : r < B) (hi : i < B) : r + B * i < B * B := by
  have : B * i + B ≤ B * B := by
    have := Nat.mul_le_mul_left B (show i + 1 ≤ B from hi)
    linarith
  omega

theorem eplus_lt (fadd : CType → Nat → Nat → Nat) (T : CType) (cplx : Bool) (x y : Nat) :
    eplus fadd T cplx x y < 256 ^ width T cplx := by
  unfold eplus width
  cases cplx
  · simp only [Bool.false_eq_true, if_false]
    exact Nat.mod_lt _ (by positivity)
  · simp only [if_true]
    have h1 : plus fadd T (x % 256 ^ sizeof T) (y % 256 ^ sizeof T) % 256 ^ sizeof T
        < 256 ^ sizeof T := Nat.mod_lt _ (by positivity)
    have h2 : plus fadd T (x / 256 ^ sizeof T % 256 ^ sizeof T)
        (y / 256 ^ sizeof T % 256 ^ sizeof T) % 256 ^ sizeof T < 256 ^ sizeof T :=
      Nat.mod_lt _ (by positivity)
    rw [two_mul, pow_add]
    exact pair_lt _ _ _ h1 h2

theorem step_eq_bump (fadd : CType → Nat → Nat → Nat) (T : CType) (cplx : Bool) (m : Mem)
    (p q : Int) (h : Apart p (width T cplx) q (width T cplx)) :
    step fadd T cplx m p q
      = bump (eplus fadd T cplx) (width T cplx) m p (load m q (width T cplx)) := by
  cases cplx
  · simp only [step, Bool.false_eq_true, if_false, ADD, bump, eplus, width]
    apply store_congr_val
    rw [Nat.mod_mod]
  · simp only [step, if_true, CADD, ADD, bump, eplus, width] at h ⊢
    unfold Apart at h
    have hs := sizeof_pos T
    rw [two_mul, load_append m p, load_append m q]
    have hl := load_lt m p (sizeof T)
    have hl' := load_lt m q (sizeof T)
    have hh := load_lt m (p + sizeof T) (sizeof T)
    have hh' := load_lt m (q + sizeof T) (sizeof T)
    have hB : 0 < 256 ^ sizeof T := by positivity
    rw [Nat.add_mul_mod_self_left, Nat.add_mul_mod_self_left, Nat.mod_eq_of_lt hl,
      Nat.mod_eq_of_lt hl', Nat.add_mul_div_left _ _ hB, Nat.add_mul_div_left _ _ hB,
      Nat.div_eq_of_lt hl, Nat.div_eq_of_lt hl', zero_add, zero_add, Nat.mod_eq_of_lt hh,
      Nat.mod_eq_of_lt hh']
    rw [load_store_disjoint _ _ _ _ _ _ (by omega), load_store_disjoint _ _ _ _ _ _ (by omega),
      store_append]
    apply store_congr_val
    rw [pow_add, pair_mod _ _ _ hB, pair_mod _ _ _ hB, Nat.mod_mod]

theorem addloop_eq_loop (fadd : CType → Nat → Nat → Nat) (T : CType) (NT : NPY_TYPES)
    (a ind data : PyArrayObject) (m : Mem) :
    addloop fadd T NT a ind data m = loop fadd T false a ind data m := rfl

theorem caddloop_eq_loop (fadd : CType → Nat → Nat → Nat) (T : CType) (NT : NPY_TYPES)
    (a ind data : PyArrayObject) (m : Mem) :
    caddloop fadd T NT a ind data m = loop fadd T true a ind data m := rfl

theorem dispatch_eq (fadd : CType → Nat → Nat → Nat) (a ind data : PyArrayObject) (m : Mem) :
    dispatch fadd a ind data m
      = (loopOf (TYPE a)).map (fun Tc => loop fadd Tc.1 Tc.2 a ind data m) := by
  unfold dispatch TYPE
  cases a.type_num <;> simp [loopOf, addloop_eq_loop, caddloop_eq_loop]

/-! ## The loops under no aliasing -/

theorem bump_outside (op : Nat → Nat → Nat) (w : Nat) (m : Mem) (p : Int) (v : Nat) (x : Int)
    (h : x < p ∨ p + w ≤ x) : bump op w m p v x = m x :=
  store_outside _ _ _ _ _ h

theorem row_congr {m m' : Mem} (ind : PyArrayObject) (R i : Nat)
    (h : ∀ j, j < R → ∀ x, PNT2 ind i j ≤ x → x < PNT2 ind i j + sizeof .long → m' x = m x) :
    row m' ind R i = row m ind R i := by
  unfold row
  apply List.map_congr_left
  intro j hj
  unfold IND2
  rw [load_congr (h j (List.mem_range.mp hj))]

theorem SameInputs.index_eq {w : Nat} {m m' : Mem} {a ind data : PyArrayObject}
    (h : SameInputs w m a ind data m') {i : Nat} (hi : i < nrows ind) :
    index m' a ind i = index m a ind i := by
  rw [index_eq_itemptr, index_eq_itemptr, row_congr ind (RANK a) i (h i hi).2]

theorem SameInputs.item_eq {w : Nat} {m m' : Mem} {a ind data : PyArrayObject}
    (h : SameInputs w m a ind data m') {i : Nat} (hi : i < nrows ind) :
    item m' data w i = item m data w i :=
  load_congr (h i hi).1

theorem SameInputs.bump {w : Nat} {m m' : Mem} {a ind ind2 data2 : PyArrayObject}
    (h : SameInputs w m a ind2 data2 m') (hsep : NoAlias w m a ind ind2 data2)
    (op : Nat → Nat → Nat) {i : Nat} (hi : i < nrows ind) (v : Nat) :
    SameInputs w m a ind2 data2 (bump op w m' (index m a ind i) v) := by
  intro k hk
  obtain ⟨h1, h2⟩ := hsep i hi k hk
  refine ⟨fun x hx1 hx2 => ?_, fun j hj x hx1 hx2 => ?_⟩
  · rw [bump_outside _ _ _ _ _ _ (by unfold Apart at h1; omega)]
    exact (h k hk).1 x hx1 hx2
  · have h3 := h2 j hj
    rw [bump_outside _ _ _ _ _ _ (by unfold Apart at h3; omega)]
    exact (h k hk).2 j hj x hx1 hx2

theorem loop_aux (fadd : CType → Nat → Nat → Nat) (T : CType) (cplx : Bool)
    (a ind data : PyArrayObject) (m : Mem)
    (hsep : NoAlias (width T cplx) m a ind ind data) (l : List Nat)
    (hl : ∀ i ∈ l, i < nrows ind) (m' : Mem)
    (hm : SameInputs (width T cplx) m a ind data m') :
    l.foldl (fun m i => step fadd T cplx m (index m a ind i) (PNT1 data i)) m'
      = applyAll (eplus fadd T cplx) (width T cplx) m'
          (l.map (fun i => (index m a ind i, item m data (width T cplx) i))) ∧
    SameInputs (width T cplx) m a ind data
      (l.foldl (fun m i => step fadd T cplx m (index m a ind i) (PNT1 data i)) m') := by
  induction l generalizing m' with
  | nil => exact ⟨rfl, hm⟩
  | cons i l ih =>
    have hi : i < nrows ind := hl i (List.mem_cons_self _ _)
    have e : step fadd T cplx m' (index m' a ind i) (PNT1 data i)
        = bump (eplus fadd T cplx) (width T cplx) m' (index m a ind i)
            (item m data (width T cplx) i) := by
      rw [hm.index_eq hi, step_eq_bump _ _ _ _ _ _ (hsep i hi i hi).1]
      exact congrArg _ (hm.item_eq hi)
    have hm2 := hm.bump hsep (eplus fadd T cplx) hi (item m data (width T cplx) i)
    obtain ⟨ih1, ih2⟩ := ih (fun k hk => hl k (List.mem_cons_of_mem _ hk)) _ hm2
    simp only [List.foldl_cons, List.map_cons, applyAll]
    rw [e]
    exact ⟨ih1, ih2⟩

theorem SameInputs.refl (w : Nat) (m : Mem) (a ind data : PyArrayObject) :
    SameInputs w m a ind data m :=
  fun _ _ => ⟨fun _ _ _ => rfl, fun _ _ _ _ _ => rfl⟩

theorem loop_eq_applyAll (fadd : CType → Nat → Nat → Nat) (T : CType) (cplx : Bool)
    (a ind data : PyArrayObject) (m : Mem)
    (hsep : NoAlias (width T cplx) m a ind ind data) :
    loop fadd T cplx a ind data m
      = applyAll (eplus fadd T cplx) (width T cplx) m (updates (width T cplx) m a ind data) :=
  (loop_aux fadd T cplx a ind data m hsep (List.range (nrows ind))
    (fun _ hi => List.mem_range.mp hi) m (SameInputs.refl _ _ _ _ _)).1

/-! ## Lists of accumulations -/

theorem applyAll_nil (op : Nat → Nat → Nat) (w : Nat) (m : Mem) : applyAll op w m [] = m := rfl

theorem applyAll_cons (op : Nat → Nat → Nat) (w : Nat) (m : Mem) (u : Int × Nat)
    (us : List (Int × Nat)) :
    applyAll op w m (u :: us) = applyAll op w (bump op w m u.1 u.2) us := rfl

theorem applyAll_append (op : Nat → Nat → Nat) (w : Nat) (m : Mem) (us vs : List (Int × Nat)) :
    applyAll op w m (us ++ vs) = applyAll op w (applyAll op w m us) vs := by
  simp [applyAll, List.foldl_append]

theorem applyAll_outside (op : Nat → Nat → Nat) (w : Nat) (us : List (Int × Nat)) (m : Mem)
    (x : Int) (h : ∀ u ∈ us, x < u.1 ∨ u.1 + w ≤ x) : applyAll op w m us x = m x := by
  induction us generalizing m with
  | nil => rfl
  | cons u us ih =>
    rw [applyAll_cons, ih _ (fun v hv => h v (List.mem_cons_of_mem _ hv)),
      bump_outside _ _ _ _ _ _ (h u (List.mem_cons_self _ _))]

theorem applyAll_load_apart (op : Nat → Nat → Nat) (w : Nat) (us : List (Int × Nat)) (m : Mem)
    (p : Int) (k : Nat) (h : ∀ u ∈ us, Apart u.1 w p k) :
    load (applyAll op w m us) p k = load m p k := by
  apply load_congr
  intro x hx1 hx2
  apply applyAll_outside
  intro u hu
  have := h u hu
  unfold Apart at this
  omega

theorem applyAll_load_cell (op : Nat → Nat → Nat) (w : Nat) (hw : 0 < w)
    (hop : ∀ x y, op x y < 256 ^ w) (us : List (Int × Nat)) (m : Mem) (p : Int)
    (h : ∀ u ∈ us, u.1 = p ∨ Apart u.1 w p w) :
    load (applyAll op w m us) p w
      = ((us.filter (fun u => decide (u.1 = p))).map (fun u => u.2)).foldl op (load m p w) := by
  induction us generalizing m with
  | nil => rfl
  | cons u us ih =>
    rw [applyAll_cons, ih _ (fun v hv => h v (List.mem_cons_of_mem _ hv))]
    rcases h u (List.mem_cons_self _ _) with he | ha
    · rw [List.filter_cons_of_pos (by simpa using he), List.map_cons, List.foldl_cons]
      subst he
      unfold bump
      rw [load_store_same, Nat.mod_eq_of_lt (hop _ _)]
    · have hne : u.1 ≠ p := by
        intro e
        unfold Apart at ha
        omega
      rw [List.filter_cons_of_neg (by simpa using hne)]
      unfold bump
      rw [load_store_disjoint _ _ _ _ _ _ (by unfold Apart at ha; omega)]

theorem inRange_map_range' (f : Nat → Int) (ds : List Int) (n k : Nat)
    (hlen : ds.length = k + n) (h : ∀ j, k ≤ j → j < k + n → 0 ≤ f j ∧ f j < ds.getD j 0) :
    inRange ((List.range' k n).map f) (ds.drop k) = true := by
  induction n generalizing k with
  | zero =>
    rw [List.drop_eq_nil_of_le (by omega)]
    rfl
  | succ n ih =>
    have hk : k < ds.length := by omega
    rw [List.range'_succ, List.map_cons, List.drop_eq_getElem_cons hk]
    have h0 := h k (le_refl _) (by omega)
    rw [List.getD_eq_getElem _ _ hk] at h0
    simp only [inRange, Bool.and_eq_true, decide_eq_true_eq]
    exact ⟨h0, ih (k + 1) (by omega) (fun j h1 h2 => h j (by omega) (by omega))⟩

theorem row_inRange {m : Mem} {a ind : PyArrayObject} (hlen : a.dimensions.length = a.nd)
    (h : RowsInRange m a ind) {i : Nat} (hi : i < nrows ind) :
    inRange (row m ind (RANK a) i) a.dimensions = true := by
  have := inRange_map_range' (fun j => IND2 m ind i j) a.dimensions (RANK a) 0
    (by simp [RANK, hlen]) (fun j _ hj => h i hi j (by omega))
  simpa [row, List.range_eq_range'] using this

theorem row_length (m : Mem) (ind : PyArrayObject) (R i : Nat) : (row m ind R i).length = R := by
  simp [row]

theorem cell_of_row {m : Mem} {a ind : PyArrayObject} {w : Nat}
    (hlay : NonOverlapping a w) (hrows : RowsInRange m a ind) {c : List Int}
    (hc : inRange c a.dimensions = true) {i : Nat} (hi : i < nrows ind) :
    (row m ind (RANK a) i = c ∧ index m a ind i = itemptr a c) ∨
      (row m ind (RANK a) i ≠ c ∧ Apart (index m a ind i) w (itemptr a c) w) := by
  rw [index_eq_itemptr]
  by_cases e : row m ind (RANK a) i = c
  · left; exact ⟨e, by rw [e]⟩
  · right; exact ⟨e, hlay.2 _ _ (row_inRange hlay.1 hrows hi) hc e⟩

theorem updates_filter_eq {m : Mem} {a ind data : PyArrayObject} {w : Nat} (hw : 0 < w)
    (hlay : NonOverlapping a w) (hrows : RowsInRange m a ind) {c : List Int}
    (hc : inRange c a.dimensions = true) :
    ((updates w m a ind data).filter (fun u => decide (u.1 = itemptr a c))).map (fun u => u.2)
      = addendsAt w m a ind data c := by
  unfold updates addendsAt entries
  rw [List.filter_map, List.filter_map, List.map_map, List.map_map]
  congr 1
  apply List.filter_congr
  intro i hi
  have hi' := List.mem_range.mp hi
  simp only [Function.comp]
  rcases cell_of_row hlay hrows hc hi' with ⟨h1, h2⟩ | ⟨h1, h2⟩
  · simp [h1, h2]
  · have : index m a ind i ≠ itemptr a c := by
      intro e
      unfold Apart at h2
      omega
    simp [h1, this]

theorem updates_cell_or_apart {m : Mem} {a ind data : PyArrayObject} {w : Nat}
    (hlay : NonOverlapping a w) (hrows : RowsInRange m a ind) {c : List Int}
    (hc : inRange c a.dimensions = true) :
    ∀ u ∈ updates w m a ind data, u.1 = itemptr a c ∨ Apart u.1 w (itemptr a c) w := by
  intro u hu
  unfold updates at hu
  obtain ⟨i, hi, rfl⟩ := List.mem_map.mp hu
  rcases cell_of_row hlay hrows hc (List.mem_range.mp hi) with ⟨_, h2⟩ | ⟨_, h2⟩
  · left; exact h2
  · right; exact h2

/-! ## The call as a whole -/

theorem add2array_ret (fadd : CType → Nat → Nat → Nat) (a ind data : PyArrayObject) (m : Mem) :
    (add2array fadd a ind data m).ret =
      if RANK ind ≠ 2 then .ValueError "rank(ind) != 2"
      else if RANK data ≠ 1 then .ValueError "rank(data) != 1"
      else if DIM ind 0 ≠ DIM data 0 then .ValueError "dim(ind) != data->dimensions[0]"
      else if DIM ind 1 ≠ (RANK a : Int) then .ValueError "dim(ind) != a->nd"
      else if TYPE ind ≠ NPY_LONG then .ValueError "type(ind) != NPY_LONG"
      else if TYPE a ≠ TYPE data then .ValueError "type(a) != type(data)"
      else if (loopOf (TYPE a)).isSome then .Py_None
      else .ValueError "Unsupported data type." := by
  unfold add2array
  rw [dispatch_eq]
  repeat' split
  all_goals first | rfl | simp_all

theorem add2array_mem (fadd : CType → Nat → Nat → Nat) (a ind data : PyArrayObject) (m : Mem) :
    (add2array fadd a ind data m).mem =
      if (add2array fadd a ind data m).ret = .Py_None then
        match loopOf (TYPE a) with
        | some (T, cplx) => loop fadd T cplx a ind data m
        | none => m
      else m := by
  rw [add2array_ret]
  unfold add2array
  rw [dispatch_eq]
  by_cases h1 : RANK ind ≠ 2
  · simp [h1]
  by_cases h2 : RANK data ≠ 1
  · simp [h1, h2]
  by_cases h3 : DIM ind 0 ≠ DIM data 0
  · simp [h1, h2, h3]
  by_cases h4 : DIM ind 1 ≠ (RANK a : Int)
  · simp [h1, h2, h3, h4]
  by_cases h5 : TYPE ind ≠ NPY_LONG
  · simp [h1, h2, h3, h4, h5]
  by_cases h6 : TYPE a ≠ TYPE data
  · simp [h1, h2, h3, h4, h5, h6]
  rw [if_neg h1, if_neg h2, if_neg h3, if_neg h4, if_neg h5, if_neg h6,
    if_neg h1, if_neg h2, if_neg h3, if_neg h4, if_neg h5, if_neg h6]
  cases h7 : loopOf (TYPE a) with
  | none => simp
  | some Tc => simp

theorem add2array_mem_of_error (fadd : CType → Nat → Nat → Nat) (a ind data : PyArrayObject)
    (m : Mem) (h : (add2array fadd a ind data m).ret ≠ .Py_None) :
    (add2array fadd a ind data m).mem = m := by
  rw [add2array_mem, if_neg h]

theorem add2array_ok_iff (fadd : CType → Nat → Nat → Nat) (a ind data : PyArrayObject)
    (m : Mem) :
    (add2array fadd a ind data m).ret = .Py_None ↔
      RANK ind = 2 ∧ RANK data = 1 ∧ DIM ind 0 = DIM data 0 ∧ DIM ind 1 = (RANK a : Int) ∧
        TYPE ind = NPY_LONG ∧ TYPE a = TYPE data ∧ (loopOf (TYPE a)).isSome = true := by
  rw [add2array_ret]
  split_ifs <;> simp_all

theorem tplus_lt (fadd : CType → Nat → Nat → Nat) {t : NPY_TYPES}
    (h : (loopOf t).isSome = true) (x y : Nat) : tplus fadd t x y < 256 ^ itemsize t := by
  unfold tplus itemsize
  cases h2 : loopOf t with
  | none => simp [h2] at h
  | some Tc => exact eplus_lt fadd Tc.1 Tc.2 x y

theorem itemsize_pos {t : NPY_TYPES} (h : (loopOf t).isSome = true) : 0 < itemsize t := by
  unfold itemsize
  cases h2 : loopOf t with
  | none => simp [h2] at h
  | some Tc => exact width_pos Tc.1 Tc.2

theorem add2array_mem_of_ok (fadd : CType → Nat → Nat → Nat) (a ind data : PyArrayObject)
    (m : Mem) (h : (add2array fadd a ind data m).ret = .Py_None)
    (hsep : NoAlias (itemsize (TYPE a)) m a ind ind data) :
    (add2array fadd a ind data m).mem
      = applyAll (tplus fadd (TYPE a)) (itemsize (TYPE a)) m
          (updates (itemsize (TYPE a)) m a ind data) := by
  rw [add2array_mem, if_pos h]
  have h7 := ((add2array_ok_iff fadd a ind data m).mp h).2.2.2.2.2.2
  revert hsep
  unfold tplus itemsize
  cases h2 : loopOf (TYPE a) with
  | none => simp [h2] at h7
  | some Tc =>
    intro hsep
    exact loop_eq_applyAll fadd Tc.1 Tc.2 a ind data m hsep

/-! ## C1: the call refines the row-by-row accumulation -/

theorem itemptr_apart_of_ccontiguous {a : PyArrayObject} {w : Nat} (hw : 0 < w)
    (hc : CContiguous a w) {c c' : List Int} (hin : inRange c a.dimensions = true)
    (hin' : inRange c' a.dimensions = true) (hne : c ≠ c') :
    Apart (itemptr a c) w (itemptr a c') w := by
  unfold Apart itemptr
  rw [hc.2]
  rcases dot_cstrides_apart w hw hin hin' hne with h | h
  · left; linarith
  · right; linarith

theorem nonOverlapping_of_ccontiguous {a : PyArrayObject} {w : Nat} (hw : 0 < w)
    (hc : CContiguous a w) : NonOverlapping a w :=
  ⟨hc.1, fun _ _ hin hin' hne => itemptr_apart_of_ccontiguous hw hc hin hin' hne⟩

/-- C19: in a C-contiguous array with elements of `w` bytes, two distinct
in-range coordinate tuples have offsets `Σ_j c[j] * stride[j]` at least `w`
apart, so two rows of `ind` whose cells share a byte are the same coordinate
tuple. -/
theorem strided_offset_injective (a : PyArrayObject) (w : Nat) (hw : 0 < w)
    (hc : CContiguous a w) :
    (∀ c c', inRange c a.dimensions = true → inRange c' a.dimensions = true → c ≠ c' →
      dot c a.strides + w ≤ dot c' a.strides ∨ dot c' a.strides + w ≤ dot c a.strides) ∧
    (∀ m ind i k, RowsInRange m a ind → i < nrows ind → k < nrows ind →
      index m a ind i < index m a ind k + w → index m a ind k < index m a ind i + w →
      row m ind (RANK a) i = row m ind (RANK a) k) := by
  refine ⟨fun c c' hin hin' hne => ?_, fun m ind i k hrows hi hk h1 h2 => ?_⟩
  · rw [hc.2]
    exact dot_cstrides_apart w hw hin hin' hne
  · by_contra hne
    have := itemptr_apart_of_ccontiguous hw hc (row_inRange hc.1 hrows hi)
      (row_inRange hc.1 hrows hk) hne
    rw [← index_eq_itemptr, ← index_eq_itemptr] at this
    unfold Apart at this
    omega

set_option maxRecDepth 100000 in
theorem strided_offset_injective_witness :
    (0 < 8 ∧ CContiguous cplxA 8) ∧
      (dot [0, 1] cplxA.strides + 8 ≤ dot [1, 0] cplxA.strides ∨
        dot [1, 0] cplxA.strides + 8 ≤ dot [0, 1] cplxA.strides) ∧
      row intMem intInd (RANK intA) 0 = row intMem intInd (RANK intA) 2 :=
  ⟨⟨by decide, by decide⟩,
    (strided_offset_injective cplxA 8 (by decide) (by decide)).1 [0, 1] [1, 0]
      (by decide) (by decide) (by decide),
    (strided_offset_injective intA 4 (by decide) (by decide)).2 intMem intInd 0 2
      (by decide) (by decide) (by decide) (by decide) (by decide)⟩

/-- C16: for a C-contiguous destination with elements of `w` bytes and rows of
`ind` within the extents of `a`, the offset the inner loop accumulates for row
`i` lies inside the buffer of `a`: it is non-negative and the element it
addresses ends no later than the `w * Π shape` bytes of the buffer. -/
theorem offset_within_buffer (m : Mem) (a ind : PyArrayObject) (w : Nat) (hw : 0 < w)
    (hc : CContiguous a w) (hrows : RowsInRange m a ind) (i : Nat) (hi : i < nrows ind) :
    0 ≤ index m a ind i - a.data ∧
      (index m a ind i - a.data) + w ≤ w * a.dimensions.prod ∧
      index m a ind i - a.data = dot (row m ind (RANK a) i) a.strides := by
  have h := dot_cstrides_bounds w hw (row_inRange hc.1 hrows hi)
  rw [index_eq_itemptr]
  unfold itemptr
  rw [hc.2]
  refine ⟨by linarith [h.1], by linarith [h.2], by ring⟩

set_option maxRecDepth 100000 in
theorem offset_within_buffer_witness :
    (0 < 8 ∧ CContiguous cplxA 8 ∧ RowsInRange cplxMem cplxA cplxInd ∧ 1 < nrows cplxInd) ∧
      0 ≤ index cplxMem cplxA cplxInd 1 - cplxA.data ∧
      (index cplxMem cplxA cplxInd 1 - cplxA.data) + 8 ≤ 8 * cplxA.dimensions.prod ∧
      index cplxMem cplxA cplxInd 1 - cplxA.data
        = dot (row cplxMem cplxInd (RANK cplxA) 1) cplxA.strides :=
  ⟨⟨by decide, by decide, by decide, by decide⟩,
    offset_within_buffer cplxMem cplxA cplxInd 8 (by decide) (by decide) (by decide) 1
      (by decide)⟩

/-! ## C15: narrow unsigned types -/

theorem plus_integer (fadd : CType → Nat → Nat → Nat) (T : CType) (hT : isInteger T = true)
    (x y : Nat) : plus fadd T x y = (x + y) % 2 ^ (8 * sizeof T) := by
  cases T <;> simp only [isInteger, Bool.false_eq_true] at hT <;>
    simp only [plus, isFloating, Bool.false_eq_true, if_false, ofValue, toValue, isSigned,
      sizeof, true_and, false_and] <;>
    norm_num <;> (try split_ifs) <;> omega

/-- C15: for a destination of type unsigned byte or unsigned short the
dispatch chain instantiates the loop with the unsigned C type and the tag of
the signed sibling, and the bits `+=` stores are those of `(x + y) mod 2^w`
(`w = 8, 16`), the same whether the operands are read as unsigned or, as for
the signed sibling, as signed values. -/
theorem narrow_unsigned_add (fadd : CType → Nat → Nat → Nat) (a ind data : PyArrayObject)
    (m : Mem) (p q : Int) (x y : Nat) :
    (TYPE a = NPY_UBYTE →
      dispatch fadd a ind data m = some (addloop fadd .uchar NPY_BYTE a ind data m)) ∧
    (TYPE a = NPY_USHORT →
      dispatch fadd a ind data m = some (addloop fadd .ushort NPY_SHORT a ind data m)) ∧
    plus fadd .uchar x y = (x + y) % 2 ^ 8 ∧ plus fadd .char x y = (x + y) % 2 ^ 8 ∧
    plus fadd .ushort x y = (x + y) % 2 ^ 16 ∧ plus fadd .short x y = (x + y) % 2 ^ 16 ∧
    load (ADD fadd m p q .uchar) p 1 = (load m p 1 + load m q 1) % 2 ^ 8 ∧
    ADD fadd m p q .uchar = ADD fadd m p q .char ∧
    load (ADD fadd m p q .ushort) p 2 = (load m p 2 + load m q 2) % 2 ^ 16 ∧
    ADD fadd m p q .ushort = ADD fadd m p q .short := by
  have e1 := plus_integer fadd .uchar rfl
  have e2 := plus_integer fadd .char rfl
  have e3 := plus_integer fadd .ushort rfl
  have e4 := plus_integer fadd .short rfl
  simp only [sizeof] at e1 e2 e3 e4
  refine ⟨fun h => ?_, fun h => ?_, e1 x y, e2 x y, e3 x y, e4 x y, ?_, ?_, ?_, ?_⟩
  · simp [dispatch, h]
  · simp [dispatch, h]
  · simp only [ADD, sizeof, load_store_same, e1]
    norm_num
  · simp only [ADD, sizeof, e1, e2]
  · simp only [ADD, sizeof, load_store_same, e3]
    norm_num
  · simp only [ADD, sizeof, e3, e4]

/-! ## C12: frame -/

theorem updates_sameInputs (op : Nat → Nat → Nat) {w : Nat} {m : Mem}
    {a ind ind2 data2 : PyArrayObject} (data : PyArrayObject) (hsep : NoAlias w m a ind ind2 data2) :
    SameInputs w m a ind2 data2 (applyAll op w m (updates w m a ind data)) := by
  intro k hk
  refine ⟨fun x hx1 hx2 => ?_, fun j hj x hx1 hx2 => ?_⟩
  · apply applyAll_outside
    intro u hu
    obtain ⟨i, hi, rfl⟩ := List.mem_map.mp hu
    have := (hsep i (List.mem_range.mp hi) k hk).1
    unfold Apart at this
    simp only
    omega
  · apply applyAll_outside
    intro u hu
    obtain ⟨i, hi, rfl⟩ := List.mem_map.mp hu
    have := (hsep i (List.mem_range.mp hi) k hk).2 j hj
    unfold Apart at this
    simp only
    omega

theorem SameInputs.row_eq {w : Nat} {m m' : Mem} {a ind data : PyArrayObject}
    (h : SameInputs w m a ind data m') {i : Nat} (hi : i < nrows ind) :
    row m' ind (RANK a) i = row m ind (RANK a) i :=
  row_congr ind (RANK a) i (h i hi).2

/-- C12 (amended): on a valid input (the call returns `Py_None`, the rows of
`ind` lie within the extents of `a`) whose destination has a non-overlapping
layout and in which no cell of `a` addressed by a row of `ind` shares a byte
with an element of `ind` or of `data`, the call changes nothing but the
elements of `a` addressed by a row of `ind`: an element whose coordinate tuple
is no row keeps its value, every byte outside the addressed cells is
unchanged, and every element of `data` and row of `ind` reads as before.
(The descriptors, with rank, extents and strides, are values the call has no
way to assign to.) -/
theorem add2array_frame (fadd : CType → Nat → Nat → Nat) (a ind data : PyArrayObject)
    (m : Mem) (hok : (add2array fadd a ind data m).ret = .Py_None)
    (hlay : NonOverlapping a (itemsize (TYPE a))) (hrows : RowsInRange m a ind)
    (hsep : NoAlias (itemsize (TYPE a)) m a ind ind data) :
    (∀ c, inRange c a.dimensions = true →
      (∀ i, i < nrows ind → row m ind (RANK a) i ≠ c) →
      load (add2array fadd a ind data m).mem (itemptr a c) (itemsize (TYPE a))
        = load m (itemptr a c) (itemsize (TYPE a))) ∧
    (∀ x, (∀ i, i < nrows ind →
        x < index m a ind i ∨ index m a ind i + itemsize (TYPE a) ≤ x) →
      (add2array fadd a ind data m).mem x = m x) ∧
    (∀ k, k < nrows ind →
      item (add2array fadd a ind data m).mem data (itemsize (TYPE a)) k
        = item m data (itemsize (TYPE a)) k ∧
      row (add2array fadd a ind data m).mem ind (RANK a) k = row m ind (RANK a) k) := by
  rw [add2array_mem_of_ok fadd a ind data m hok hsep]
  refine ⟨fun c hc hno => ?_, fun x hx => ?_, fun k hk => ?_⟩
  · apply applyAll_load_apart
    intro u hu
    obtain ⟨i, hi, rfl⟩ := List.mem_map.mp hu
    rcases cell_of_row hlay hrows hc (List.mem_range.mp hi) with ⟨h1, _⟩ | ⟨_, h2⟩
    · exact absurd h1 (hno i (List.mem_range.mp hi))
    · exact h2
  · apply applyAll_outside
    intro u hu
    obtain ⟨i, hi, rfl⟩ := List.mem_map.mp hu
    exact hx i (List.mem_range.mp hi)
  · have hs := updates_sameInputs (tplus fadd (TYPE a)) data hsep
    exact ⟨hs.item_eq hk, hs.row_eq hk⟩

set_option maxRecDepth 100000 in
theorem add2array_frame_witness :
    ((add2array sampleFadd cplxA cplxInd cplxData cplxMem).ret = .Py_None ∧
      NonOverlapping cplxA (itemsize (TYPE cplxA)) ∧ RowsInRange cplxMem cplxA cplxInd ∧
      NoAlias (itemsize (TYPE cplxA)) cplxMem cplxA cplxInd cplxInd cplxData) ∧
    load (add2array sampleFadd cplxA cplxInd cplxData cplxMem).mem (itemptr cplxA [0, 1]) 8
      = load cplxMem (itemptr cplxA [0, 1]) 8 ∧
    (add2array sampleFadd cplxA cplxInd cplxData cplxMem).mem 150 = cplxMem 150 ∧
    item (add2array sampleFadd cplxA cplxInd cplxData cplxMem).mem cplxData 8 1
      = item cplxMem cplxData 8 1 ∧
    row (add2array sampleFadd cplxA cplxInd cplxData cplxMem).mem cplxInd 2 1
      = row cplxMem cplxInd 2 1 :=
  have hlay : NonOverlapping cplxA (itemsize (TYPE cplxA)) :=
    nonOverlapping_of_ccontiguous (by decide) (by decide)
  have h := add2array_frame sampleFadd cplxA cplxInd cplxData cplxMem (by decide) hlay
    (by decide) (by decide)
  ⟨⟨by decide, hlay, by decide, by decide⟩,
    h.1 [0, 1] (by decide) (by decide), h.2.1 150 (by decide), h.2.2 1 (by decide)⟩

/-! ## C13: the sum reaching each cell -/

theorem pow256 (n : Nat) : 256 ^ n = 2 ^ (8 * n) := by
  rw [pow_mul]
  norm_num

theorem integerTag_isSome {t : NPY_TYPES} (h : integerTag t = true) :
    (loopOf t).isSome = true := by
  cases t <;> simp_all [integerTag, loopOf]

theorem tplus_integer (fadd : CType → Nat → Nat → Nat) {t : NPY_TYPES}
    (h : integerTag t = true) (x y : Nat) :
    tplus fadd t x y = (x + y) % 2 ^ (8 * itemsize t) := by
  unfold integerTag at h
  unfold tplus itemsize
  cases h2 : loopOf t with
  | none => simp [h2] at h
  | some Tc =>
    obtain ⟨T, cplx⟩ := Tc
    cases cplx
    · simp only [h2] at h
      simp only [eplus, width, Bool.false_eq_true, if_false]
      rw [plus_integer fadd T h, pow256, Nat.mod_mod]
    · simp [h2] at h

theorem foldl_add_mod (M : Nat) (vs : List Nat) (x : Nat) (hx : x < M) :
    vs.foldl (fun x v => (x + v) % M) x = (x + vs.sum) % M := by
  induction vs generalizing x with
  | nil => simp [Nat.mod_eq_of_lt hx]
  | cons v vs ih =>
    rw [List.foldl_cons, ih _ (Nat.mod_lt _ (by omega)), List.sum_cons, Nat.add_mod,
      Nat.mod_mod, ← Nat.add_mod, add_assoc]

theorem load_cell_of_ok (fadd : CType → Nat → Nat → Nat) (a ind data : PyArrayObject)
    (m : Mem) (hok : (add2array fadd a ind data m).ret = .Py_None)
    (hlay : NonOverlapping a (itemsize (TYPE a))) (hrows : RowsInRange m a ind)
    (hsep : NoAlias (itemsize (TYPE a)) m a ind ind data)
    (c : List Int) (hc : inRange c a.dimensions = true) :
    load (add2array fadd a ind data m).mem (itemptr a c) (itemsize (TYPE a))
      = (addendsAt (itemsize (TYPE a)) m a ind data c).foldl (tplus fadd (TYPE a))
          (load m (itemptr a c) (itemsize (TYPE a))) := by
  have h7 := ((add2array_ok_iff fadd a ind data m).mp hok).2.2.2.2.2.2
  rw [add2array_mem_of_ok fadd a ind data m hok hsep,
    applyAll_load_cell _ _ (itemsize_pos h7) (tplus_lt fadd h7) _ _ _
      (updates_cell_or_apart hlay hrows hc),
    updates_filter_eq (itemsize_pos h7) hlay hrows hc]

theorem load_cell_integer (fadd : CType → Nat → Nat → Nat) (a ind data : PyArrayObject)
    (m : Mem) (hint : integerTag (TYPE a) = true)
    (hok : (add2array fadd a ind data m).ret = .Py_None)
    (hlay : NonOverlapping a (itemsize (TYPE a))) (hrows : RowsInRange m a ind)
    (hsep : NoAlias (itemsize (TYPE a)) m a ind ind data)
    (c : List Int) (hc : inRange c a.dimensions = true) :
    load (add2array fadd a ind data m).mem (itemptr a c) (itemsize (TYPE a))
      = (load m (itemptr a c) (itemsize (TYPE a))
          + (addendsAt (itemsize (TYPE a)) m a ind data c).sum)
        % 2 ^ (8 * itemsize (TYPE a)) := by
  rw [load_cell_of_ok fadd a ind data m hok hlay hrows hsep c hc]
  have e : tplus fadd (TYPE a) = fun x v => (x + v) % 2 ^ (8 * itemsize (TYPE a)) := by
    funext x v
    exact tplus_integer fadd hint x v
  rw [e, foldl_add_mod]
  rw [← pow256]
  exact load_lt _ _ _

/-- C13 (amended): on a valid input (the call returns `Py_None`, the rows of
`ind` lie within the extents of `a`) with an integer element type of `w` bits,
whose destination has a non-overlapping layout and in which no cell of `a`
addressed by a row of `ind` shares a byte with an element of `ind` or of
`data`, after the call the element of `a` at each in-range coordinate `c` is
its original value plus the sum of `data[i]` over the rows `i` with
`ind[i] = c`, modulo `2^w`; every duplicate row contributes its own addend. -/
theorem cell_sum (fadd : CType → Nat → Nat → Nat) (a ind data : PyArrayObject)
    (m : Mem) (hint : integerTag (TYPE a) = true)
    (hok : (add2array fadd a ind data m).ret = .Py_None)
    (hlay : NonOverlapping a (itemsize (TYPE a))) (hrows : RowsInRange m a ind)
    (hsep : NoAlias (itemsize (TYPE a)) m a ind ind data)
    (c : List Int) (hc : inRange c a.dimensions = true) :
    load (add2array fadd a ind data m).mem (itemptr a c) (itemsize (TYPE a))
      = (load m (itemptr a c) (itemsize (TYPE a))
          + (addendsAt (itemsize (TYPE a)) m a ind data c).sum)
        % 2 ^ (8 * itemsize (TYPE a)) :=
  load_cell_integer fadd a ind data m hint hok hlay hrows hsep c hc

set_option maxRecDepth 100000 in
theorem cell_sum_witness :
    (integerTag (TYPE intA) = true ∧
      (add2array sampleFadd intA intInd intData intMem).ret = .Py_None ∧
      NonOverlapping intA (itemsize (TYPE intA)) ∧ RowsInRange intMem intA intInd ∧
      NoAlias (itemsize (TYPE intA)) intMem intA intInd intInd intData ∧
      inRange [0] intA.dimensions = true) ∧
    addendsAt (itemsize (TYPE intA)) intMem intA intInd intData [0] = [5, 3] ∧
    load (add2array sampleFadd intA intInd intData intMem).mem (itemptr intA [0])
        (itemsize (TYPE intA))
      = (load intMem (itemptr intA [0]) (itemsize (TYPE intA))
          + (addendsAt (itemsize (TYPE intA)) intMem intA intInd intData [0]).sum)
        % 2 ^ (8 * itemsize (TYPE intA)) :=
  have hlay : NonOverlapping intA (itemsize (TYPE intA)) :=
    nonOverlapping_of_ccontiguous (by decide) (by decide)
  ⟨⟨by decide, by decide, hlay, by decide, by decide, by decide⟩, by decide,
    cell_sum sampleFadd intA intInd intData intMem (by decide) (by decide) hlay (by decide)
      (by decide) [0] (by decide)⟩

/-! ## C2: a coordinate repeated in two rows -/

theorem addendsAt_sum (w : Nat) (m : Mem) (a ind data : PyArrayObject) (c : List Int) :
    (addendsAt w m a ind data c).sum
      = ∑ j in Finset.range (nrows ind),
          if row m ind (RANK a) j = c then item m data w j else 0 := by
  have e : Finset.range (nrows ind) = (List.range (nrows ind)).toFinset := by
    ext j
    simp
  rw [e, List.sum_toFinset _ (List.nodup_range _)]
  unfold addendsAt entries
  generalize List.range (nrows ind) = l
  induction l with
  | nil => rfl
  | cons j l ih =>
    by_cases h : row m ind (RANK a) j = c
    · simp only [List.map_cons, h, decide_True, List.filter_cons_of_pos, List.sum_cons, if_true]
      rw [ih]
    · simp only [List.map_cons, h, decide_False, Bool.false_eq_true, not_false_eq_true,
        List.filter_cons_of_neg, List.sum_cons, if_false, zero_add]
      rw [ih]

theorem addendsAt_sum_two (w : Nat) (m : Mem) (a ind data : PyArrayObject) (i k : Nat)
    (hi : i < nrows ind) (hk : k < nrows ind) (hik : i ≠ k)
    (hsame : row m ind (RANK a) i = row m ind (RANK a) k)
    (hothers : ∀ j, j < nrows ind → j ≠ i → j ≠ k →
      row m ind (RANK a) j ≠ row m ind (RANK a) i) :
    (addendsAt w m a ind data (row m ind (RANK a) i)).sum
      = item m data w i + item m data w k := by
  rw [addendsAt_sum, Finset.sum_eq_add_of_mem i k (Finset.mem_range.mpr hi)
    (Finset.mem_range.mpr hk) hik]
  · simp [hsame]
  · intro j hj hne
    rw [if_neg (hothers j (Finset.mem_range.mp hj) hne.1 hne.2)]

/-- C2 (amended): on a valid input (the call returns `Py_None`, the rows of
`ind` lie within the extents of `a`) with an integer element type of `w` bits,
whose destination has a non-overlapping layout and in which no cell of `a`
addressed by a row of `ind` shares a byte with an element of `ind` or of
`data`, if rows `i ≠ k` of `ind` hold the same coordinate tuple and no other
row holds it, the element of `a` at that coordinate ends as its original value
plus `data[i] + data[k]`, modulo `2^w`. -/
theorem repeated_index_accumulates (fadd : CType → Nat → Nat → Nat)
    (a ind data : PyArrayObject) (m : Mem) (hint : integerTag (TYPE a) = true)
    (hok : (add2array fadd a ind data m).ret = .Py_None)
    (hlay : NonOverlapping a (itemsize (TYPE a))) (hrows : RowsInRange m a ind)
    (hsep : NoAlias (itemsize (TYPE a)) m a ind ind data)
    (i k : Nat) (hi : i < nrows ind) (hk : k < nrows ind) (hik : i ≠ k)
    (hsame : row m ind (RANK a) i = row m ind (RANK a) k)
    (hothers : ∀ j, j < nrows ind → j ≠ i → j ≠ k →
      row m ind (RANK a) j ≠ row m ind (RANK a) i) :
    load (add2array fadd a ind data m).mem (index m a ind i) (itemsize (TYPE a))
      = (load m (index m a ind i) (itemsize (TYPE a))
          + (item m data (itemsize (TYPE a)) i + item m data (itemsize (TYPE a)) k))
        % 2 ^ (8 * itemsize (TYPE a)) := by
  rw [index_eq_itemptr,
    load_cell_integer fadd a ind data m hint hok hlay hrows hsep _
      (row_inRange hlay.1 hrows hi),
    addendsAt_sum_two _ m a ind data i k hi hk hik hsame hothers]

set_option maxRecDepth 100000 in
theorem repeated_index_accumulates_witness :
    (integerTag (TYPE intA) = true ∧
      (add2array sampleFadd intA intInd intData intMem).ret = .Py_None ∧
      NonOverlapping intA (itemsize (TYPE intA)) ∧ RowsInRange intMem intA intInd ∧
      NoAlias (itemsize (TYPE intA)) intMem intA intInd intInd intData ∧
      row intMem intInd (RANK intA) 0 = row intMem intInd (RANK intA) 2 ∧
      ∀ j, j < nrows intInd → j ≠ 0 → j ≠ 2 →
        row intMem intInd (RANK intA) j ≠ row intMem intInd (RANK intA) 0) ∧
    load (add2array sampleFadd intA intInd intData intMem).mem (index intMem intA intInd 0)
        (itemsize (TYPE intA))
      = (load intMem (index intMem intA intInd 0) (itemsize (TYPE intA))
          + (item intMem intData (itemsize (TYPE intA)) 0
            + item intMem intData (itemsize (TYPE intA)) 2))
        % 2 ^ (8 * itemsize (TYPE intA)) :=
  have hlay : NonOverlapping intA (itemsize (TYPE intA)) :=
    nonOverlapping_of_ccontiguous (by decide) (by decide)
  ⟨⟨by decide, by decide, hlay, by decide, by decide, by decide, by decide⟩,
    repeated_index_accumulates sampleFadd intA intInd intData intMem (by decide) (by decide)
      hlay (by decide) (by decide) 0 2 (by decide) (by decide) (by decide) (by decide)
      (by decide)⟩

/-! ## Boolean accumulation -/

theorem add2array_ret_mem (fadd : CType → Nat → Nat → Nat) (a ind data : PyArrayObject)
    (m m' : Mem) : (add2array fadd a ind data m').ret = (add2array fadd a ind data m).ret := by
  rw [add2array_ret, add2array_ret]

theorem updates_congr {w : Nat} {m m' : Mem} {a ind data : PyArrayObject}
    (h : SameInputs w m a ind data m') : updates w m' a ind data = updates w m a ind data := by
  unfold updates
  apply List.map_congr_left
  intro i hi
  rw [h.index_eq (List.mem_range.mp hi), h.item_eq (List.mem_range.mp hi)]

theorem entries_congr {w : Nat} {m m' : Mem} {a ind data : PyArrayObject}
    (h : SameInputs w m a ind data m') : entries w m' a ind data = entries w m a ind data := by
  unfold entries
  apply List.map_congr_left
  intro i hi
  rw [h.row_eq (List.mem_range.mp hi), h.item_eq (List.mem_range.mp hi)]

theorem noAlias_congr {w : Nat} {m m' : Mem} {a ind data ind2 data2 : PyArrayObject}
    (h : SameInputs w m a ind data m') (hsep : NoAlias w m a ind ind2 data2) :
    NoAlias w m' a ind ind2 data2 := by
  intro i hi k hk
  rw [h.index_eq hi]
  exact hsep i hi k hk

theorem tplus_bool (fadd : CType → Nat → Nat → Nat) (x y : Nat) :
    tplus fadd NPY_BOOL x y = if x = 0 ∧ y = 0 then 0 else 1 := by
  simp only [tplus, loopOf, eplus, Bool.false_eq_true, if_false, plus, isFloating, ofValue,
    toValue, sizeof]
  by_cases hx : x = 0 <;> by_cases hy : y = 0 <;> simp [hx, hy]

theorem foldl_bool (vs : List Nat) (hvs : vs ≠ []) (y : Nat) :
    vs.foldl (fun x v => if x = 0 ∧ v = 0 then 0 else 1) y
      = if y ≠ 0 ∨ ∃ v ∈ vs, v ≠ 0 then 1 else 0 := by
  induction vs generalizing y with
  | nil => exact absurd rfl hvs
  | cons v vs ih =>
    rw [List.foldl_cons]
    by_cases hn : vs = []
    · subst hn
      by_cases hy : y = 0 <;> by_cases hv : v = 0 <;> simp [hy, hv]
    · rw [ih hn]
      by_cases hy : y = 0 <;> by_cases hv : v = 0 <;> simp [hy, hv]

theorem foldl_bool_ne_zero (vs : List Nat) (y : Nat) :
    vs.foldl (fun x v => if x = 0 ∧ v = 0 then 0 else 1) y ≠ 0
      ↔ y ≠ 0 ∨ ∃ v ∈ vs, v ≠ 0 := by
  by_cases hn : vs = []
  · subst hn
    simp
  · rw [foldl_bool vs hn]
    by_cases h : y ≠ 0 ∨ ∃ v ∈ vs, v ≠ 0 <;> simp [h]

theorem foldl_bool_twice (vs : List Nat) (hvs : vs ≠ []) (y : Nat) :
    vs.foldl (fun x v => if x = 0 ∧ v = 0 then 0 else 1)
        (vs.foldl (fun x v => if x = 0 ∧ v = 0 then 0 else 1) y % 256)
      = vs.foldl (fun x v => if x = 0 ∧ v = 0 then 0 else 1) y := by
  rw [foldl_bool vs hvs y, foldl_bool vs hvs]
  by_cases h : y ≠ 0 ∨ ∃ v ∈ vs, v ≠ 0
  · simp [h]
  · have h2 : ∀ x ∈ vs, x = 0 := by
      push_neg at h
      exact h.2
    simpa [h] using h2

theorem bump_one (op : Nat → Nat → Nat) (m : Mem) (p : Int) (v : Nat) (x : Int) :
    bump op 1 m p v x = if x = p then op (m p % 256) v % 256 else m x := by
  unfold bump store
  by_cases h : x = p
  · subst h
    simp [load]
  · rw [if_neg h, if_neg]
    push_cast
    omega

theorem applyAll_one (op : Nat → Nat → Nat) (hop : ∀ x y, op x y < 256)
    (us : List (Int × Nat)) (m : Mem) (x : Int) :
    applyAll op 1 m us x =
      if (us.filter (fun u => decide (u.1 = x))) = [] then m x
      else ((us.filter (fun u => decide (u.1 = x))).map (fun u => u.2)).foldl op (m x % 256) := by
  induction us generalizing m with
  | nil => rfl
  | cons u us ih =>
    rw [applyAll_cons, ih, bump_one]
    by_cases hu : u.1 = x
    · rw [List.filter_cons_of_pos (by simpa using hu)]
      subst hu
      simp only [if_true, List.map_cons, List.foldl_cons, reduceCtorEq, if_false]
      rw [Nat.mod_eq_of_lt (hop _ _)]
      split
      · rename_i h
        rw [h]
        rfl
      · rw [Nat.mod_eq_of_lt (hop _ _)]
    · have hx : x ≠ u.1 := fun e => hu e.symm
      rw [List.filter_cons_of_neg (by simpa using hu), if_neg hx]

theorem applyAll_bool_twice (fadd : CType → Nat → Nat → Nat) (us : List (Int × Nat)) (m : Mem) :
    applyAll (tplus fadd NPY_BOOL) 1 (applyAll (tplus fadd NPY_BOOL) 1 m us) us
      = applyAll (tplus fadd NPY_BOOL) 1 m us := by
  have e : tplus fadd NPY_BOOL = fun x v => if x = 0 ∧ v = 0 then 0 else 1 := by
    funext x v
    exact tplus_bool fadd x v
  have hop : ∀ x y : Nat, (fun x v => if x = 0 ∧ v = 0 then 0 else 1 : Nat → Nat → Nat) x y < 256 := by
    intro x y
    simp only
    split <;> omega
  rw [e]
  funext x
  rw [applyAll_one _ hop us _ x]
  by_cases hn : us.filter (fun u => decide (u.1 = x)) = []
  · rw [if_pos hn]
  · rw [if_neg hn, applyAll_one _ hop us m x, if_neg hn]
    exact foldl_bool_twice _ (by simpa using hn) _

/-! ## C17: boolean elements -/

theorem mem_addendsAt {w : Nat} {m : Mem} {a ind data : PyArrayObject} {c : List Int}
    {v : Nat} :
    v ∈ addendsAt w m a ind data c ↔
      ∃ i, i < nrows ind ∧ row m ind (RANK a) i = c ∧ item m data w i = v := by
  unfold addendsAt entries
  simp only [List.mem_map, List.mem_filter, List.mem_range, decide_eq_true_eq]
  constructor
  · rintro ⟨e, ⟨⟨i, hi, rfl⟩, hc⟩, rfl⟩
    exact ⟨i, hi, hc, rfl⟩
  · rintro ⟨i, hi, hc, rfl⟩
    exact ⟨_, ⟨⟨i, hi, rfl⟩, hc⟩, rfl⟩

theorem add2array_bool_twice (fadd : CType → Nat → Nat → Nat) (a ind data : PyArrayObject)
    (m : Mem) (hb : TYPE a = NPY_BOOL) (hok : (add2array fadd a ind data m).ret = .Py_None)
    (hsep : NoAlias 1 m a ind ind data) :
    (add2array fadd a ind data (add2array fadd a ind data m).mem).mem
      = (add2array fadd a ind data m).mem := by
  have hw : itemsize (TYPE a) = 1 := by rw [hb]; rfl
  have hsep' : NoAlias (itemsize (TYPE a)) m a ind ind data := by rw [hw]; exact hsep
  have e1 := add2array_mem_of_ok fadd a ind data m hok hsep'
  have hs : SameInputs (itemsize (TYPE a)) m a ind data (add2array fadd a ind data m).mem := by
    rw [e1]
    exact updates_sameInputs _ data hsep'
  have hok2 : (add2array fadd a ind data (add2array fadd a ind data m).mem).ret = .Py_None := by
    rw [add2array_ret_mem]
    exact hok
  rw [add2array_mem_of_ok fadd a ind data _ hok2 (noAlias_congr hs hsep'), updates_congr hs, e1]
  rw [hw, hb]
  exact applyAll_bool_twice fadd _ m

/-- C17 (amended): for the boolean element type the accumulation is a logical
OR.  On a valid input (the call returns `Py_None`, the rows of `ind` lie within
the extents of `a`) whose destination has a non-overlapping layout and in
which no cell of `a` addressed by a row of `ind` shares a byte with an element
of `ind` or of `data`, after the call `a[c]` is true iff it was true before or
some row `i` with `ind[i] = c` has `data[i]` true; adding true to true gives
true; and a second call with the same `ind` and `data` changes nothing. -/
theorem bool_accumulates_or (fadd : CType → Nat → Nat → Nat) (a ind data : PyArrayObject)
    (m : Mem) (hb : TYPE a = NPY_BOOL) (hok : (add2array fadd a ind data m).ret = .Py_None)
    (hlay : NonOverlapping a 1) (hrows : RowsInRange m a ind)
    (hsep : NoAlias 1 m a ind ind data) :
    (∀ c, inRange c a.dimensions = true →
      (load (add2array fadd a ind data m).mem (itemptr a c) 1 ≠ 0 ↔
        load m (itemptr a c) 1 ≠ 0 ∨
          ∃ i, i < nrows ind ∧ row m ind (RANK a) i = c ∧ item m data 1 i ≠ 0)) ∧
    plus fadd .bool 1 1 = 1 ∧
    (add2array fadd a ind data (add2array fadd a ind data m).mem).mem
      = (add2array fadd a ind data m).mem := by
  have hw : itemsize (TYPE a) = 1 := by rw [hb]; rfl
  refine ⟨fun c hc => ?_, by simp [plus, isFloating, ofValue, toValue],
    add2array_bool_twice fadd a ind data m hb hok hsep⟩
  have h := load_cell_of_ok fadd a ind data m hok (by rw [hw]; exact hlay) hrows
    (by rw [hw]; exact hsep) c hc
  rw [hw, hb] at h
  have e : tplus fadd NPY_BOOL = fun x v => if x = 0 ∧ v = 0 then 0 else 1 := by
    funext x v
    exact tplus_bool fadd x v
  rw [h, e, foldl_bool_ne_zero]
  constructor
  · rintro (h1 | ⟨v, hv, hv0⟩)
    · left; exact h1
    · right
      obtain ⟨i, hi, hr, rfl⟩ := mem_addendsAt.mp hv
      exact ⟨i, hi, hr, hv0⟩
  · rintro (h1 | ⟨i, hi, hr, hv0⟩)
    · left; exact h1
    · right
      exact ⟨_, mem_addendsAt.mpr ⟨i, hi, hr, rfl⟩, hv0⟩

set_option maxRecDepth 100000 in
theorem bool_accumulates_or_witness :
    (TYPE boolA = NPY_BOOL ∧
      (add2array sampleFadd boolA boolInd boolData boolMem).ret = .Py_None ∧
      NonOverlapping boolA 1 ∧ RowsInRange boolMem boolA boolInd ∧
      NoAlias 1 boolMem boolA boolInd boolInd boolData) ∧
    load (add2array sampleFadd boolA boolInd boolData boolMem).mem (itemptr boolA [1]) 1 ≠ 0 ∧
    load (add2array sampleFadd boolA boolInd boolData boolMem).mem (itemptr boolA [0]) 1 = 0 ∧
    (add2array sampleFadd boolA boolInd boolData
        (add2array sampleFadd boolA boolInd boolData boolMem).mem).mem
      = (add2array sampleFadd boolA boolInd boolData boolMem).mem :=
  have hlay : NonOverlapping boolA 1 := nonOverlapping_of_ccontiguous (by decide) (by decide)
  have h := bool_accumulates_or sampleFadd boolA boolInd boolData boolMem (by decide)
    (by decide) hlay (by decide) (by decide)
  ⟨⟨by decide, by decide, hlay, by decide, by decide⟩,
    (h.1 [1] (by decide)).mpr (Or.inr ⟨0, by decide, by decide, by decide⟩),
    by decide, h.2.2⟩

/-! ## C14: order of the rows -/

theorem updates_eq_entries_map (w : Nat) (m : Mem) (a ind data : PyArrayObject) :
    updates w m a ind data = (entries w m a ind data).map (fun e => (itemptr a e.1, e.2)) := by
  unfold updates entries
  rw [List.map_map]
  apply List.map_congr_left
  intro i _
  simp only [Function.comp, index_eq_itemptr]

theorem bump_comm (op : Nat → Nat → Nat) (w : Nat) (hop : ∀ x y, op x y < 256 ^ w)
    (hcomm : ∀ x y z, op (op x y) z = op (op x z) y) (z : Mem) (p q : Int) (v u : Nat)
    (h : p = q ∨ Apart p w q w) :
    bump op w (bump op w z p v) q u = bump op w (bump op w z q u) p v := by
  unfold bump
  rcases h with h | h
  · subst h
    rw [store_store_same, store_store_same, load_store_same, load_store_same,
      Nat.mod_eq_of_lt (hop _ _), Nat.mod_eq_of_lt (hop _ _), hcomm]
  · unfold Apart at h
    rw [load_store_disjoint _ _ _ _ _ _ (by omega), load_store_disjoint _ _ _ _ _ _ (by omega),
      store_store_comm _ _ _ _ _ _ _ (by omega)]

theorem tplus_right_comm (fadd : CType → Nat → Nat → Nat) {t : NPY_TYPES}
    (h : nonFloatingTag t = true) (x y z : Nat) :
    tplus fadd t (tplus fadd t x y) z = tplus fadd t (tplus fadd t x z) y := by
  by_cases hb : t = NPY_BOOL
  · subst hb
    simp only [tplus_bool]
    by_cases hx : x = 0 <;> by_cases hy : y = 0 <;> by_cases hz : z = 0 <;> simp [hx, hy, hz]
  · have hint : integerTag t = true := by
      cases t <;> simp_all [nonFloatingTag, integerTag, loopOf, isFloating, isInteger]
    simp only [tplus_integer fadd hint]
    rw [Nat.add_mod, Nat.mod_mod, ← Nat.add_mod, Nat.add_mod (((x + z) % _)), Nat.mod_mod,
      ← Nat.add_mod, add_right_comm]

theorem nonFloatingTag_isSome {t : NPY_TYPES} (h : nonFloatingTag t = true) :
    (loopOf t).isSome = true := by
  cases t <;> simp_all [nonFloatingTag, loopOf]

/-- C14 (amended): for a non-floating-point element type, let two calls on the
same destination both return `Py_None`, the rows of `(ind2, data2)` being those
of `(ind, data)` in another order (the lists of (coordinate tuple, addend)
pairs are permutations of each other).  If for each call no cell of `a`
addressed by its rows shares a byte with an element of its index or data
array, and any two cells of `a` addressed by rows coincide or share no byte,
the two calls leave the same memory: the order in which additions reach a
cell does not matter. -/
theorem order_independent (fadd : CType → Nat → Nat → Nat)
    (a ind data ind2 data2 : PyArrayObject) (m : Mem)
    (hnf : nonFloatingTag (TYPE a) = true)
    (hok : (add2array fadd a ind data m).ret = .Py_None)
    (hok2 : (add2array fadd a ind2 data2 m).ret = .Py_None)
    (hsep : NoAlias (itemsize (TYPE a)) m a ind ind data)
    (hsep2 : NoAlias (itemsize (TYPE a)) m a ind2 ind2 data2)
    (hcells : NoPartialOverlap (itemsize (TYPE a)) m a ind)
    (hperm : (entries (itemsize (TYPE a)) m a ind2 data2).Perm
      (entries (itemsize (TYPE a)) m a ind data)) :
    (add2array fadd a ind2 data2 m).mem = (add2array fadd a ind data m).mem := by
  rw [add2array_mem_of_ok fadd a ind data m hok hsep,
    add2array_mem_of_ok fadd a ind2 data2 m hok2 hsep2]
  have hp : (updates (itemsize (TYPE a)) m a ind data).Perm
      (updates (itemsize (TYPE a)) m a ind2 data2) := by
    rw [updates_eq_entries_map, updates_eq_entries_map]
    exact (hperm.map _).symm
  unfold applyAll
  refine (List.Perm.foldl_eq' hp ?_ m).symm
  intro u hu v hv z
  obtain ⟨i, hi, rfl⟩ := List.mem_map.mp hu
  obtain ⟨k, hk, rfl⟩ := List.mem_map.mp hv
  exact bump_comm _ _ (tplus_lt fadd (nonFloatingTag_isSome hnf))
    (tplus_right_comm fadd hnf) z _ _ _ _
    (hcells i (List.mem_range.mp hi) k (List.mem_range.mp hk))

set_option maxRecDepth 100000 in
theorem order_independent_witness :
    (nonFloatingTag (TYPE intA) = true ∧
      (add2array sampleFadd intA intInd intData intMem2).ret = .Py_None ∧
      (add2array sampleFadd intA intInd2 intData2 intMem2).ret = .Py_None ∧
      NoAlias (itemsize (TYPE intA)) intMem2 intA intInd intInd intData ∧
      NoAlias (itemsize (TYPE intA)) intMem2 intA intInd2 intInd2 intData2 ∧
      NoPartialOverlap (itemsize (TYPE intA)) intMem2 intA intInd ∧
      entries (itemsize (TYPE intA)) intMem2 intA intInd intData = [([0], 5), ([1], 7), ([0], 3)] ∧
      entries (itemsize (TYPE intA)) intMem2 intA intInd2 intData2
        = [([0], 3), ([0], 5), ([1], 7)]) ∧
    (add2array sampleFadd intA intInd2 intData2 intMem2).mem
      = (add2array sampleFadd intA intInd intData intMem2).mem :=
  ⟨⟨by decide, by decide, by decide, by decide, by decide, by decide, by decide, by decide⟩,
    order_independent sampleFadd intA intInd intData intInd2 intData2 intMem2 (by decide)
      (by decide) (by decide) (by decide) (by decide) (by decide) (by decide)⟩

/-! ## C11: complex elements -/

/-- C18 (amended): let the calls on `(ind1, data1)`, `(ind2, data2)` and
`(ind12, data12)` all return `Py_None`, the rows and addends of
`(ind12, data12)` being those of `(ind1, data1)` followed by those of
`(ind2, data2)` as they are before any call.  If no cell of `a` addressed by a
row of `ind1` shares a byte with an element of `ind1`, `data1`, `ind2` or
`data2`, none addressed by a row of `ind2` with an element of `ind2` or
`data2`, and none addressed by a row of `ind12` with an element of `ind12` or
`data12`, then the call on `(ind12, data12)` leaves the memory that the call
on `(ind1, data1)` followed by the call on `(ind2, data2)` leaves, and that
second call succeeds too; a successful call with no rows leaves the memory
unchanged. -/
theorem concat_composes (fadd : CType → Nat → Nat → Nat)
    (a ind1 data1 ind2 data2 ind12 data12 : PyArrayObject) (m : Mem)
    (hok1 : (add2array fadd a ind1 data1 m).ret = .Py_None)
    (hok2 : (add2array fadd a ind2 data2 m).ret = .Py_None)
    (hok12 : (add2array fadd a ind12 data12 m).ret = .Py_None)
    (hcat : entries (itemsize (TYPE a)) m a ind12 data12
      = entries (itemsize (TYPE a)) m a ind1 data1 ++ entries (itemsize (TYPE a)) m a ind2 data2)
    (hs11 : NoAlias (itemsize (TYPE a)) m a ind1 ind1 data1)
    (hs12 : NoAlias (itemsize (TYPE a)) m a ind1 ind2 data2)
    (hs22 : NoAlias (itemsize (TYPE a)) m a ind2 ind2 data2)
    (hs : NoAlias (itemsize (TYPE a)) m a ind12 ind12 data12) :
    (add2array fadd a ind12 data12 m).mem
        = (add2array fadd a ind2 data2 (add2array fadd a ind1 data1 m).mem).mem ∧
      (add2array fadd a ind2 data2 (add2array fadd a ind1 data1 m).mem).ret = .Py_None ∧
      (nrows ind1 = 0 → (add2array fadd a ind1 data1 m).mem = m) := by
  have e1 := add2array_mem_of_ok fadd a ind1 data1 m hok1 hs11
  have hsame : SameInputs (itemsize (TYPE a)) m a ind2 data2
      (add2array fadd a ind1 data1 m).mem := by
    rw [e1]
    exact updates_sameInputs _ data1 hs12
  have hok2' : (add2array fadd a ind2 data2 (add2array fadd a ind1 data1 m).mem).ret
      = .Py_None := by
    rw [add2array_ret_mem]
    exact hok2
  refine ⟨?_, hok2', fun h0 => ?_⟩
  · rw [add2array_mem_of_ok fadd a ind2 data2 _ hok2' (noAlias_congr hsame hs22),
      updates_congr hsame, e1, add2array_mem_of_ok fadd a ind12 data12 m hok12 hs,
      updates_eq_entries_map, hcat, List.map_append, applyAll_append,
      ← updates_eq_entries_map, ← updates_eq_entries_map]
  · rw [e1]
    unfold updates
    rw [h0]
    rfl

set_option maxRecDepth 100000 in
theorem concat_composes_witness :
    ((add2array sampleFadd intA headInd headData intMem).ret = .Py_None ∧
      (add2array sampleFadd intA tailInd tailData intMem).ret = .Py_None ∧
      (add2array sampleFadd intA intInd intData intMem).ret = .Py_None ∧
      entries (itemsize (TYPE intA)) intMem intA intInd intData
        = entries (itemsize (TYPE intA)) intMem intA headInd headData
          ++ entries (itemsize (TYPE intA)) intMem intA tailInd tailData ∧
      NoAlias (itemsize (TYPE intA)) intMem intA headInd headInd headData ∧
      NoAlias (itemsize (TYPE intA)) intMem intA headInd tailInd tailData ∧
      NoAlias (itemsize (TYPE intA)) intMem intA tailInd tailInd tailData ∧
      NoAlias (itemsize (TYPE intA)) intMem intA intInd intInd intData) ∧
    (add2array sampleFadd intA intInd intData intMem).mem
      = (add2array sampleFadd intA tailInd tailData
          (add2array sampleFadd intA headInd headData intMem).mem).mem ∧
    ((add2array sampleFadd intA noInd noData intMem).ret = .Py_None ∧ nrows noInd = 0 ∧
      (add2array sampleFadd intA noInd noData intMem).mem = intMem) :=
  ⟨⟨by decide, by decide, by decide, by decide, by decide, by decide, by decide, by decide⟩,
    (concat_composes sampleFadd intA headInd headData tailInd tailData intInd intData intMem
      (by decide) (by decide) (by decide) (by decide) (by decide) (by decide) (by decide)
      (by decide)).1,
    by decide, by decide,
    (concat_composes sampleFadd intA noInd noData tailInd tailData tailInd tailData intMem
      (by decide) (by decide) (by decide) (by decide) (by decide) (by decide) (by decide)
      (by decide)).2.2 (by decide)⟩

/-! ## C3 to C10: validation, errors and the first scenario -/

theorem supported_iff_loopOf (t : NPY_TYPES) : supported t = (loopOf t).isSome := by
  cases t <;> rfl

theorem ret_eq_validate_spec (fadd : CType → Nat → Nat → Nat) (a ind data : PyArrayObject)
    (m : Mem) : (add2array fadd a ind data m).ret = validate_spec a ind data := by
  rw [add2array_ret]
  unfold validate_spec documentedOrder
  simp only [List.find?, Check.passes, RANK, DIM, TYPE, supported_iff_loopOf]
  split_ifs <;> simp_all [Check.error]

/-- C3: the result of `add2array` is the error of the first check, in the
documented order 1 to 7, that the arguments violate, and `Py_None` when they
violate none; the seven errors are pairwise different, so the error reported
identifies that check alone. -/
theorem first_failing_check_reported (fadd : CType → Nat → Nat → Nat)
    (a ind data : PyArrayObject) (m : Mem) :
    (add2array fadd a ind data m).ret = validate_spec a ind data ∧
      (∀ c c' : Check, c.error = c'.error → c = c') ∧
      ∀ c : Check, c.error ≠ .Py_None := by
  refine ⟨ret_eq_validate_spec fadd a ind data m, ?_, ?_⟩
  · intro c c' h
    cases c <;> cases c' <;> first | rfl | (exact absurd h (by decide))
  · intro c
    cases c <;> decide

theorem ADD_fadd_irrelevant (fadd fadd' : CType → Nat → Nat → Nat) (T : CType)
    (h : isFloating T = false) : ADD fadd (T := T) = ADD fadd' (T := T) := by
  funext m p q
  simp [ADD, plus, h]

theorem addloop_fadd_irrelevant (fadd fadd' : CType → Nat → Nat → Nat) (T : CType)
    (h : isFloating T = false) (NT : NPY_TYPES) (a ind data : PyArrayObject) (m : Mem) :
    addloop fadd T NT a ind data m = addloop fadd' T NT a ind data m := by
  unfold addloop
  simp only [ADD, plus, h, Bool.false_eq_true, if_false]

theorem add2array_fadd_irrelevant (fadd fadd' : CType → Nat → Nat → Nat)
    (a ind data : PyArrayObject) (m : Mem) (h : nonFloatingTag (TYPE a) = true) :
    add2array fadd a ind data m = add2array fadd' a ind data m := by
  have e : dispatch fadd a ind data m = dispatch fadd' a ind data m := by
    unfold dispatch
    unfold TYPE at h ⊢
    cases ht : a.type_num <;> rw [ht] at h <;>
      simp only [nonFloatingTag, loopOf, isFloating, Bool.not_true, Bool.not_false,
        Bool.false_eq_true, reduceCtorEq] at h <;>
      simp only [if_true, if_false, reduceCtorEq] <;>
      (refine congrArg some ?_; apply addloop_fadd_irrelevant; rfl)
  unfold add2array
  rw [e]

set_option maxRecDepth 100000 in
/-- C10: the specification's first scenario.  With `a = zeros(3)` of type
`int`, `ind = [[0],[1],[0]]` of type `long` and `data = [5, 7, 3]`, the call
returns `Py_None` and leaves `a = [8, 7, 0]`. -/
theorem scenario_int32 (fadd : CType → Nat → Nat → Nat) :
    (add2array fadd intA intInd intData intMem).ret = .Py_None ∧
      load (add2array fadd intA intInd intData intMem).mem (itemptr intA [0]) 4 = 8 ∧
      load (add2array fadd intA intInd intData intMem).mem (itemptr intA [1]) 4 = 7 ∧
      load (add2array fadd intA intInd intData intMem).mem (itemptr intA [2]) 4 = 0 ∧
      load intMem (itemptr intA [0]) 4 = 0 ∧ load intMem (itemptr intA [1]) 4 = 0 ∧
      load intMem (itemptr intA [2]) 4 = 0 ∧
      row intMem intInd 1 0 = [0] ∧ row intMem intInd 1 1 = [1] ∧ row intMem intInd 1 2 = [0] ∧
      item intMem intData 4 0 = 5 ∧ item intMem intData 4 1 = 7 ∧ item intMem intData 4 2 = 3 := by
  rw [add2array_fadd_irrelevant fadd sampleFadd intA intInd intData intMem rfl]
  decide

/-- C4: whenever the call returns an error, the memory after the call is the
memory before it: the destination `a` (like everything else) is untouched. -/
theorem error_leaves_memory_unchanged (fadd : CType → Nat → Nat → Nat)
    (a ind data : PyArrayObject) (m : Mem)
    (herr : (add2array fadd a ind data m).ret ≠ .Py_None) :
    (add2array fadd a ind data m).mem = m :=
  add2array_mem_of_error fadd a ind data m herr

set_option maxRecDepth 100000 in
theorem error_leaves_memory_unchanged_witness :
    (add2array sampleFadd doubleA intInd intData intMem).ret
        = .ValueError "type(a) != type(data)" ∧
      (add2array sampleFadd doubleA intInd intData intMem).mem = intMem :=
  ⟨by decide,
    error_leaves_memory_unchanged sampleFadd doubleA intInd intData intMem (by decide)⟩

/-- C5: the call returns `Py_None` exactly when all seven checks pass; so once
they pass the loop cannot turn the result into an error, and when one fails
the result is an error. -/
theorem success_iff_all_checks (fadd : CType → Nat → Nat → Nat) (a ind data : PyArrayObject)
    (m : Mem) :
    (add2array fadd a ind data m).ret = .Py_None ↔
      ∀ c ∈ documentedOrder, Check.passes a ind data c = true := by
  rw [add2array_ok_iff]
  simp only [documentedOrder, List.mem_cons, List.mem_singleton, forall_eq_or_imp, forall_eq,
    Check.passes, decide_eq_true_eq, RANK, DIM, TYPE, supported_iff_loopOf, List.not_mem_nil,
    false_implies, implies_true, and_true]

/-- C6 (amended): if checks 1 to 5 pass and the element type of `a` differs from
that of `data`, the call reports the type mismatch between `a` and `data`
and leaves the memory unchanged. -/
theorem type_mismatch_reported (fadd : CType → Nat → Nat → Nat) (a ind data : PyArrayObject)
    (m : Mem)
    (hpre : ∀ c ∈ [Check.indRank, .dataRank, .rowCount, .columnCount, .indType],
      Check.passes a ind data c = true)
    (hne : TYPE a ≠ TYPE data) :
    (add2array fadd a ind data m).ret = .ValueError "type(a) != type(data)" ∧
      errorKind (add2array fadd a ind data m).ret = some .TypeMismatch ∧
      (add2array fadd a ind data m).mem = m := by
  simp only [List.mem_cons, List.mem_singleton, forall_eq_or_imp, forall_eq, Check.passes,
    decide_eq_true_eq, List.not_mem_nil, false_implies, implies_true, and_true] at hpre
  obtain ⟨h1, h2, h3, h4, h5⟩ := hpre
  have hr : (add2array fadd a ind data m).ret = .ValueError "type(a) != type(data)" := by
    rw [add2array_ret]
    simp only [RANK, DIM, TYPE] at hne ⊢
    rw [if_neg (not_not.mpr h1), if_neg (not_not.mpr h2), if_neg (not_not.mpr h3),
      if_neg (not_not.mpr h4), if_neg (not_not.mpr h5), if_pos hne]
  refine ⟨hr, ?_, add2array_mem_of_error fadd a ind data m (by rw [hr]; decide)⟩
  rw [hr]
  decide

set_option maxRecDepth 100000 in
theorem type_mismatch_reported_witness :
    ((∀ c ∈ [Check.indRank, .dataRank, .rowCount, .columnCount, .indType],
        Check.passes doubleA intInd intData c = true) ∧ TYPE doubleA ≠ TYPE intData) ∧
      (add2array sampleFadd doubleA intInd intData intMem).ret
        = .ValueError "type(a) != type(data)" ∧
      errorKind (add2array sampleFadd doubleA intInd intData intMem).ret = some .TypeMismatch ∧
      (add2array sampleFadd doubleA intInd intData intMem).mem = intMem :=
  ⟨⟨by decide, by decide⟩,
    type_mismatch_reported sampleFadd doubleA intInd intData intMem (by decide) (by decide)⟩

set_option maxRecDepth 100000 in
/-- C6 fails as stated: with `a` of type float64, `data` of type `int` and an
index array of rank 1, the call reports the rank of `ind`, a `RankMismatch`,
not a `TypeMismatch`. -/
theorem type_mismatch_masked_by_rank_check :
    TYPE doubleA ≠ TYPE intData ∧
      (add2array sampleFadd doubleA flatInd intData intMem).ret
        = .ValueError "rank(ind) != 2" ∧
      errorKind (add2array sampleFadd doubleA flatInd intData intMem).ret
        = some .RankMismatch := by
  decide

/-- C7 (amended): if checks 1 to 4 pass and the element type of `ind` is not
`long`, the call reports the type of `ind`, a `TypeMismatch`, and leaves the
memory unchanged. -/
theorem index_type_reported (fadd : CType → Nat → Nat → Nat) (a ind data : PyArrayObject)
    (m : Mem)
    (hpre : ∀ c ∈ [Check.indRank, .dataRank, .rowCount, .columnCount],
      Check.passes a ind data c = true)
    (hne : TYPE ind ≠ NPY_LONG) :
    (add2array fadd a ind data m).ret = .ValueError "type(ind) != NPY_LONG" ∧
      errorKind (add2array fadd a ind data m).ret = some .TypeMismatch ∧
      (add2array fadd a ind data m).mem = m := by
  simp only [List.mem_cons, List.mem_singleton, forall_eq_or_imp, forall_eq, Check.passes,
    decide_eq_true_eq, List.not_mem_nil, false_implies, implies_true, and_true] at hpre
  obtain ⟨h1, h2, h3, h4⟩ := hpre
  have hr : (add2array fadd a ind data m).ret = .ValueError "type(ind) != NPY_LONG" := by
    rw [add2array_ret]
    simp only [RANK, DIM, TYPE] at hne ⊢
    rw [if_neg (not_not.mpr h1), if_neg (not_not.mpr h2), if_neg (not_not.mpr h3),
      if_neg (not_not.mpr h4), if_pos hne]
  refine ⟨hr, ?_, add2array_mem_of_error fadd a ind data m (by rw [hr]; decide)⟩
  rw [hr]
  decide

set_option maxRecDepth 100000 in
theorem index_type_reported_witness :
    ((∀ c ∈ [Check.indRank, .dataRank, .rowCount, .columnCount],
        Check.passes intA int32Ind intData c = true) ∧ TYPE int32Ind ≠ NPY_LONG) ∧
      (add2array sampleFadd intA int32Ind intData intMem).ret
        = .ValueError "type(ind) != NPY_LONG" ∧
      errorKind (add2array sampleFadd intA int32Ind intData intMem).ret = some .TypeMismatch ∧
      (add2array sampleFadd intA int32Ind intData intMem).mem = intMem :=
  ⟨⟨by decide, by decide⟩,
    index_type_reported sampleFadd intA int32Ind intData intMem (by decide) (by decide)⟩

set_option maxRecDepth 100000 in
/-- C7 fails as stated: an index array of 32-bit `int` elements that has rank 1
makes the call report the rank of `ind`, a `RankMismatch`, not a
`TypeMismatch`. -/
theorem index_type_masked_by_rank_check :
    TYPE flatIntInd ≠ NPY_LONG ∧
      (add2array sampleFadd intA flatIntInd intData intMem).ret
        = .ValueError "rank(ind) != 2" ∧
      errorKind (add2array sampleFadd intA flatIntInd intData intMem).ret
        = some .RankMismatch := by
  decide

/-- C8 (amended): if the two rank checks pass and `ind.shape[1]` differs from
the rank of `a`, the call reports a `DimensionMismatch`, the one of axis 1 when
`ind.shape[0]` equals `data.shape[0]` and else the one of axis 0, and leaves
the memory unchanged. -/
theorem column_count_reported (fadd : CType → Nat → Nat → Nat) (a ind data : PyArrayObject)
    (m : Mem)
    (hpre : ∀ c ∈ [Check.indRank, .dataRank], Check.passes a ind data c = true)
    (hne : DIM ind 1 ≠ (RANK a : Int)) :
    errorKind (add2array fadd a ind data m).ret = some .DimensionMismatch ∧
      (add2array fadd a ind data m).ret =
        (if DIM ind 0 = DIM data 0 then .ValueError "dim(ind) != a->nd"
          else .ValueError "dim(ind) != data->dimensions[0]") ∧
      (add2array fadd a ind data m).mem = m := by
  simp only [List.mem_cons, List.mem_singleton, forall_eq_or_imp, forall_eq, Check.passes,
    decide_eq_true_eq, List.not_mem_nil, false_implies, implies_true, and_true] at hpre
  obtain ⟨h1, h2⟩ := hpre
  have hr : (add2array fadd a ind data m).ret =
      if DIM ind 0 = DIM data 0 then .ValueError "dim(ind) != a->nd"
      else .ValueError "dim(ind) != data->dimensions[0]" := by
    rw [add2array_ret]
    simp only [RANK, DIM, TYPE] at hne ⊢
    rw [if_neg (not_not.mpr h1), if_neg (not_not.mpr h2)]
    by_cases h3 : ind.dimensions.getD 0 0 = data.dimensions.getD 0 0
    · rw [if_neg (not_not.mpr h3), if_pos hne, if_pos h3]
    · rw [if_pos h3, if_neg h3]
  refine ⟨?_, hr, add2array_mem_of_error fadd a ind data m ?_⟩
  · rw [hr]
    split <;> decide
  · rw [hr]
    split <;> decide

set_option maxRecDepth 100000 in
theorem column_count_reported_witness :
    ((∀ c ∈ [Check.indRank, .dataRank], Check.passes squareA wideInd fiveData c = true) ∧
        (∀ c ∈ [Check.indRank, .dataRank], Check.passes squareA wideInd sixData c = true) ∧
        DIM wideInd 1 ≠ (RANK squareA : Int) ∧
        DIM wideInd 0 = DIM fiveData 0 ∧ DIM wideInd 0 ≠ DIM sixData 0) ∧
      (errorKind (add2array sampleFadd squareA wideInd fiveData intMem).ret
          = some .DimensionMismatch ∧
        (add2array sampleFadd squareA wideInd fiveData intMem).ret
          = .ValueError "dim(ind) != a->nd" ∧
        (add2array sampleFadd squareA wideInd fiveData intMem).mem = intMem) ∧
      (errorKind (add2array sampleFadd squareA wideInd sixData intMem).ret
          = some .DimensionMismatch ∧
        (add2array sampleFadd squareA wideInd sixData intMem).ret
          = .ValueError "dim(ind) != data->dimensions[0]" ∧
        (add2array sampleFadd squareA wideInd sixData intMem).mem = intMem) :=
  have h := column_count_reported sampleFadd squareA wideInd fiveData intMem (by decide)
    (by decide)
  have h6 := column_count_reported sampleFadd squareA wideInd sixData intMem (by decide)
    (by decide)
  ⟨⟨by decide, by decide, by decide, by decide, by decide⟩,
    ⟨h.1, h.2.1.trans (if_pos (by decide)), h.2.2⟩,
    ⟨h6.1, h6.2.1.trans (if_neg (by decide)), h6.2.2⟩⟩

set_option maxRecDepth 100000 in
/-- C8 fails as stated: with `a` of rank 2, `ind` of shape `(5, 3)` and a data
array of rank 2, the call reports the rank of `data`, a `RankMismatch`, not a
`DimensionMismatch`. -/
theorem column_count_masked_by_rank_check :
    DIM wideInd 1 ≠ (RANK squareA : Int) ∧
      (add2array sampleFadd squareA wideInd rank2Data intMem).ret
        = .ValueError "rank(data) != 1" ∧
      errorKind (add2array sampleFadd squareA wideInd rank2Data intMem).ret
        = some .RankMismatch := by
  decide

/-- C9 (amended): if checks 1 to 6 pass and the element type of `a` is not a
supported one, the call reports `UnsupportedType` whatever the memory holds
(the contents of `ind` and `data` are never read), and leaves the memory
unchanged. -/
theorem unsupported_type_reported (fadd : CType → Nat → Nat → Nat)
    (a ind data : PyArrayObject) (m : Mem)
    (hpre : ∀ c ∈ [Check.indRank, .dataRank, .rowCount, .columnCount, .indType, .sameType],
      Check.passes a ind data c = true)
    (hun : supported (TYPE a) = false) :
    (add2array fadd a ind data m).ret = .ValueError "Unsupported data type." ∧
      errorKind (add2array fadd a ind data m).ret = some .UnsupportedType ∧
      (add2array fadd a ind data m).mem = m := by
  simp only [List.mem_cons, List.mem_singleton, forall_eq_or_imp, forall_eq, Check.passes,
    decide_eq_true_eq, List.not_mem_nil, false_implies, implies_true, and_true] at hpre
  obtain ⟨h1, h2, h3, h4, h5, h6⟩ := hpre
  rw [supported_iff_loopOf] at hun
  have hr : (add2array fadd a ind data m).ret = .ValueError "Unsupported data type." := by
    rw [add2array_ret]
    simp only [RANK, DIM, TYPE] at hun ⊢
    rw [if_neg (not_not.mpr h1), if_neg (not_not.mpr h2), if_neg (not_not.mpr h3),
      if_neg (not_not.mpr h4), if_neg (not_not.mpr h5), if_neg (not_not.mpr h6),
      if_neg (by simp [hun])]
  refine ⟨hr, ?_, add2array_mem_of_error fadd a ind data m (by rw [hr]; decide)⟩
  rw [hr]
  decide

set_option maxRecDepth 100000 in
theorem unsupported_type_reported_witness :
    ((∀ c ∈ [Check.indRank, .dataRank, .rowCount, .columnCount, .indType, .sameType],
        Check.passes objectA intInd objectData c = true) ∧ supported (TYPE objectA) = false) ∧
      (add2array sampleFadd objectA intInd objectData intMem).ret
        = .ValueError "Unsupported data type." ∧
      errorKind (add2array sampleFadd objectA intInd objectData intMem).ret
        = some .UnsupportedType ∧
      (add2array sampleFadd objectA intInd objectData intMem).mem = intMem :=
  ⟨⟨by decide, by decide⟩,
    unsupported_type_reported sampleFadd objectA intInd objectData intMem (by decide)
      (by decide)⟩

set_option maxRecDepth 100000 in
/-- C9 fails as stated: with `a` an object array and `data` of type `int`, the
call reports the mismatch between the two element types, a `TypeMismatch`,
not `UnsupportedType`. -/
theorem unsupported_type_masked_by_type_check :
    supported (TYPE objectA) = false ∧
      (add2array sampleFadd objectA intInd intData intMem).ret
        = .ValueError "type(a) != type(data)" ∧
      errorKind (add2array sampleFadd objectA intInd intData intMem).ret
        = some .TypeMismatch := by
  decide

/-! ## Inputs on which the claims as first stated fail -/

set_option maxRecDepth 100000 in
/-- C12 fails as stated when `data` is the destination itself: on
`add2array(a, ind, a)` with `a = [1, 2]` C-contiguous and `ind = [[1],[0]]`
the call succeeds and `data[1]` changes from 2 to 3. -/
theorem frame_fails_when_data_is_destination :
    (add2array sampleFadd aliasA aliasInd aliasA aliasMem).ret = .Py_None ∧
    CContiguous aliasA (itemsize (TYPE aliasA)) ∧
    RowsInRange aliasMem aliasA aliasInd ∧
    item aliasMem aliasA 4 1 = 2 ∧
    item (add2array sampleFadd aliasA aliasInd aliasA aliasMem).mem aliasA 4 1 = 3 := by
  decide

set_option maxRecDepth 100000 in
/-- C13 fails as stated in two ways.  On a destination whose two elements
share storage (stride 0) all checks pass and the rows `[0], [1], [0]` are in
range, yet `a[0]` ends as `5 + 7 + 3 = 15`, not as `0 + (5 + 3)`.  And when
`data` is the C-contiguous destination itself, `a = [1, 2]` with
`ind = [[1],[0]]`, `a[0]` ends as 4, not as `1 + 2`. -/
theorem cell_sum_fails_on_overlap_or_alias :
    (integerTag (TYPE ovA) = true ∧
      (add2array sampleFadd ovA intInd intData intMem).ret = .Py_None ∧
      RowsInRange intMem ovA intInd ∧
      NoAlias (itemsize (TYPE ovA)) intMem ovA intInd intInd intData ∧
      inRange [0] ovA.dimensions = true ∧
      load (add2array sampleFadd ovA intInd intData intMem).mem (itemptr ovA [0]) 4 = 15 ∧
      (load intMem (itemptr ovA [0]) 4
          + (addendsAt (itemsize (TYPE ovA)) intMem ovA intInd intData [0]).sum) % 2 ^ 32 = 8) ∧
    (integerTag (TYPE aliasA) = true ∧
      (add2array sampleFadd aliasA aliasInd aliasA aliasMem).ret = .Py_None ∧
      CContiguous aliasA (itemsize (TYPE aliasA)) ∧
      RowsInRange aliasMem aliasA aliasInd ∧
      inRange [0] aliasA.dimensions = true ∧
      load (add2array sampleFadd aliasA aliasInd aliasA aliasMem).mem (itemptr aliasA [0]) 4
        = 4 ∧
      (load aliasMem (itemptr aliasA [0]) 4
          + (addendsAt (itemsize (TYPE aliasA)) aliasMem aliasA aliasInd aliasA [0]).sum)
        % 2 ^ 32 = 3) := by
  decide

set_option maxRecDepth 100000 in
/-- C2 fails as stated in two ways.  On a destination whose two elements share
storage (stride 0): rows 0 and 2 hold the tuple `[0]`, no other row does, all
checks pass and every row is in range, yet `a[0]` ends as `15`, not as
`0 + (5 + 3)`.  And when `data` is the C-contiguous destination itself,
`a = [1, 2, 3]` with `ind = [[1],[0],[0]]`: rows 1 and 2 hold `[0]`, row 0 does
not, yet `a[0]` ends as 7, not as `1 + (2 + 3)`. -/
theorem repeated_index_fails_on_overlap_or_alias :
    (integerTag (TYPE ovA) = true ∧
      (add2array sampleFadd ovA intInd intData intMem).ret = .Py_None ∧
      RowsInRange intMem ovA intInd ∧
      NoAlias (itemsize (TYPE ovA)) intMem ovA intInd intInd intData ∧
      row intMem intInd (RANK ovA) 0 = row intMem intInd (RANK ovA) 2 ∧
      (∀ j, j < nrows intInd → j ≠ 0 → j ≠ 2 →
        row intMem intInd (RANK ovA) j ≠ row intMem intInd (RANK ovA) 0) ∧
      load (add2array sampleFadd ovA intInd intData intMem).mem (index intMem ovA intInd 0) 4
        = 15 ∧
      (load intMem (index intMem ovA intInd 0) 4
          + (item intMem intData 4 0 + item intMem intData 4 2)) % 2 ^ 32 = 8) ∧
    (integerTag (TYPE alias3A) = true ∧
      (add2array sampleFadd alias3A alias3Ind alias3A alias3Mem).ret = .Py_None ∧
      CContiguous alias3A (itemsize (TYPE alias3A)) ∧
      RowsInRange alias3Mem alias3A alias3Ind ∧
      row alias3Mem alias3Ind (RANK alias3A) 1 = row alias3Mem alias3Ind (RANK alias3A) 2 ∧
      (∀ j, j < nrows alias3Ind → j ≠ 1 → j ≠ 2 →
        row alias3Mem alias3Ind (RANK alias3A) j ≠ row alias3Mem alias3Ind (RANK alias3A) 1) ∧
      load (add2array sampleFadd alias3A alias3Ind alias3A alias3Mem).mem
          (index alias3Mem alias3A alias3Ind 1) 4 = 7 ∧
      (load alias3Mem (index alias3Mem alias3A alias3Ind 1) 4
          + (item alias3Mem alias3A 4 1 + item alias3Mem alias3A 4 2)) % 2 ^ 32 = 6) := by
  decide

set_option maxRecDepth 100000 in
/-- C17 fails as stated in two ways.  On a destination whose two elements
share storage (stride 0) all checks pass and both rows, `[1]`, are in range;
`a[0]` was false and no row holds the tuple `[0]`, yet `a[0]` ends true.  And
when `data` is the C-contiguous destination itself, `a = [F, T, F]` with
`ind = [[0],[2],[0]]`: `a[0]` was false and the addends of rows 0 and 2 are
false when the call is made, yet `a[0]` ends true. -/
theorem bool_or_fails_on_overlap_or_alias :
    (TYPE ovBoolA = NPY_BOOL ∧
      (add2array sampleFadd ovBoolA boolInd boolData boolMem).ret = .Py_None ∧
      RowsInRange boolMem ovBoolA boolInd ∧
      NoAlias 1 boolMem ovBoolA boolInd boolInd boolData ∧
      inRange [0] ovBoolA.dimensions = true ∧
      load boolMem (itemptr ovBoolA [0]) 1 = 0 ∧
      (∀ i, i < nrows boolInd → row boolMem boolInd (RANK ovBoolA) i ≠ [0]) ∧
      load (add2array sampleFadd ovBoolA boolInd boolData boolMem).mem (itemptr ovBoolA [0]) 1
        = 1) ∧
    (TYPE boolAliasA = NPY_BOOL ∧
      (add2array sampleFadd boolAliasA boolAliasInd boolAliasA boolAliasMem).ret = .Py_None ∧
      CContiguous boolAliasA 1 ∧
      RowsInRange boolAliasMem boolAliasA boolAliasInd ∧
      inRange [0] boolAliasA.dimensions = true ∧
      load boolAliasMem (itemptr boolAliasA [0]) 1 = 0 ∧
      (∀ i, i < nrows boolAliasInd → row boolAliasMem boolAliasInd (RANK boolAliasA) i = [0] →
        item boolAliasMem boolAliasA 1 i = 0) ∧
      load (add2array sampleFadd boolAliasA boolAliasInd boolAliasA boolAliasMem).mem
          (itemptr boolAliasA [0]) 1 = 1) := by
  decide

set_option maxRecDepth 100000 in
/-- C14 fails as stated in two ways.  On a destination of two `short`
elements one byte apart holding the bytes `FF FF 00`, the rows `[[0],[1]]`
and `[[1],[0]]` with addends `[1, 1]` pass all checks, are in range and the
arrays read are stored apart from the cells written, yet byte 2 ends as 0 in
one order and as 1 in the other.  And when `data` is the C-contiguous
destination `a = [1, 2]` itself, the rows `[[1],[0]]` with `data = a` and the
same rows in the other order, `[[0],[1]]` with `data = a[::-1]`, leave
`a = [4, 3]` and `a = [3, 5]`. -/
theorem order_matters_on_partial_overlap_or_alias :
    (nonFloatingTag (TYPE shortA) = true ∧
      (add2array sampleFadd shortA shortInd shortData shortMem).ret = .Py_None ∧
      (add2array sampleFadd shortA shortInd2 shortData shortMem).ret = .Py_None ∧
      RowsInRange shortMem shortA shortInd ∧ RowsInRange shortMem shortA shortInd2 ∧
      NoAlias (itemsize (TYPE shortA)) shortMem shortA shortInd shortInd shortData ∧
      NoAlias (itemsize (TYPE shortA)) shortMem shortA shortInd2 shortInd2 shortData ∧
      entries (itemsize (TYPE shortA)) shortMem shortA shortInd shortData = [([0], 1), ([1], 1)] ∧
      entries (itemsize (TYPE shortA)) shortMem shortA shortInd2 shortData
        = [([1], 1), ([0], 1)] ∧
      (add2array sampleFadd shortA shortInd shortData shortMem).mem 2 = 0 ∧
      (add2array sampleFadd shortA shortInd2 shortData shortMem).mem 2 = 1) ∧
    (nonFloatingTag (TYPE aliasA) = true ∧
      (add2array sampleFadd aliasA aliasInd aliasA aliasMem).ret = .Py_None ∧
      (add2array sampleFadd aliasA swappedInd reversedA aliasMem).ret = .Py_None ∧
      RowsInRange aliasMem aliasA aliasInd ∧ RowsInRange aliasMem aliasA swappedInd ∧
      NoPartialOverlap (itemsize (TYPE aliasA)) aliasMem aliasA aliasInd ∧
      entries (itemsize (TYPE aliasA)) aliasMem aliasA aliasInd aliasA = [([1], 1), ([0], 2)] ∧
      entries (itemsize (TYPE aliasA)) aliasMem aliasA swappedInd reversedA
        = [([0], 2), ([1], 1)] ∧
      load (add2array sampleFadd aliasA aliasInd aliasA aliasMem).mem (itemptr aliasA [0]) 4
        = 4 ∧
      load (add2array sampleFadd aliasA aliasInd aliasA aliasMem).mem (itemptr aliasA [1]) 4
        = 3 ∧
      load (add2array sampleFadd aliasA swappedInd reversedA aliasMem).mem (itemptr aliasA [0]) 4
        = 3 ∧
      load (add2array sampleFadd aliasA swappedInd reversedA aliasMem).mem (itemptr aliasA [1]) 4
        = 5) := by
  decide

set_option maxRecDepth 100000 in
/-- C18 fails as stated when an addend array of the second call is stored in
the destination.  With `a = [1, 2]`, `(ind1, data1) = ([[1]], a[0:1])`,
`(ind2, data2) = ([[0]], a[1:2])` and the concatenation
`([[1],[0]], [1, 2])` taken before any call, every call succeeds and every
row is in range; the concatenated call leaves `a = [3, 3]`, the two calls in
sequence leave `a = [4, 3]`. -/
theorem concat_fails_when_data_is_destination :
    (add2array sampleFadd aliasA firstInd firstData aliasMem).ret = .Py_None ∧
    (add2array sampleFadd aliasA secondInd secondData aliasMem).ret = .Py_None ∧
    (add2array sampleFadd aliasA aliasInd copyData aliasMem).ret = .Py_None ∧
    RowsInRange aliasMem aliasA firstInd ∧ RowsInRange aliasMem aliasA secondInd ∧
    RowsInRange aliasMem aliasA aliasInd ∧
    entries (itemsize (TYPE aliasA)) aliasMem aliasA aliasInd copyData
      = entries (itemsize (TYPE aliasA)) aliasMem aliasA firstInd firstData
        ++ entries (itemsize (TYPE aliasA)) aliasMem aliasA secondInd secondData ∧
    load (add2array sampleFadd aliasA aliasInd copyData aliasMem).mem (itemptr aliasA [0]) 4
      = 3 ∧
    load (add2array sampleFadd aliasA secondInd secondData
        (add2array sampleFadd aliasA firstInd firstData aliasMem).mem).mem (itemptr aliasA [0]) 4
      = 4 := by
  decide

end Utils
